import Mathlib

/-!
# Verification of the pourover CEF parsing/model library

A shallow embedding of `pourover` (CEF log line parsing, message model,
log collection) into Lean 4, together with theorems settling a list of
claims about the library.

Python text is modelled as `List Char`.  Python `dict`s (the code uses
`OrderedDict` and, equivalently on CPython 3.7+, plain `dict`s) are
modelled as ordered association lists with unique keys: insertion of an
existing key overwrites in place, insertion of a new key appends at the
end, exactly like the Python semantics.  Python exceptions are modelled
with `Except`; the clock (`datetime.utcnow()`) is passed explicitly as a
`now : DateTime` parameter (the code reads the clock several times per
operation; all reads are modelled as returning the same instant).
-/

namespace Pourover

/-- Python strings, modelled as lists of characters. -/
abbrev PyStr := List Char

/-- The ASCII whitespace characters matched by `\s` in the patterns used by
the library (and stripped by `int()`); the inputs of interest are ASCII. -/
def pyIsSpace (c : Char) : Bool :=
  c = ' ' || c = '\t' || c = '\n' || c = '\r' || c = '\x0b' || c = '\x0c'

/-- `[a-zA-Z]` of the `SYSLOG_SEP` pattern. -/
def pyIsAlpha (c : Char) : Bool :=
  ('a' ≤ c && c ≤ 'z') || ('A' ≤ c && c ≤ 'Z')

/-- `[0-9]`. -/
def pyIsDigit (c : Char) : Bool :=
  '0' ≤ c && c ≤ '9'

/-- `\w` (ASCII part), as used for the hostname token of `SYSLOG_SEP`. -/
def pyIsWord (c : Char) : Bool :=
  pyIsAlpha c || pyIsDigit c || c = '_'

/-- Python's substring test `needle in hay` for strings. -/
def isSubstr (needle hay : PyStr) : Bool :=
  hay.tails.any (fun t => needle.isPrefixOf t)

/-- Python `str.split(sep)` for a single-character separator: splits at every
occurrence, keeping empty pieces (`''.split(' ') == ['']`). -/
def pySplitChar (sep : Char) : PyStr → List PyStr
  | [] => [[]]
  | c :: t =>
    match pySplitChar sep t with
    | [] => [[c]]
    | h :: r => if c = sep then [] :: h :: r else (c :: h) :: r

/-- `' '.join(pieces)`. -/
def joinSpace (l : List PyStr) : PyStr :=
  List.intercalate [' '] l

/-- Digit run of Python `int(str)` after the sign: one or more ASCII digits
with single underscores allowed between digits. -/
def pyDigitsGo (acc : Nat) : PyStr → Option Nat
  | [] => some acc
  | '_' :: c :: t =>
    if pyIsDigit c then pyDigitsGo (acc * 10 + (c.toNat - 48)) t else none
  | ['_'] => none
  | c :: t =>
    if pyIsDigit c then pyDigitsGo (acc * 10 + (c.toNat - 48)) t else none

/-- Nonempty digit run (first char must be a digit). -/
def pyDigits : PyStr → Option Nat
  | [] => none
  | c :: t =>
    if pyIsDigit c then pyDigitsGo (c.toNat - 48) t else none

/-- Python `int(s)` on a string: strips whitespace, allows one sign, then a
digit run; `none` models `ValueError`. -/
def pyInt (s : PyStr) : Option Int :=
  let t := ((s.dropWhile pyIsSpace).reverse.dropWhile pyIsSpace).reverse
  match t with
  | '-' :: r => (pyDigits r).map (fun n => -(n : Int))
  | '+' :: r => (pyDigits r).map (fun n => (n : Int))
  | r => (pyDigits r).map (fun n => (n : Int))

/-! ## Tokenizer: the `HEADER_SEP` and `HEADER_SPLIT` regular expressions

`HEADER_SEP = r'(.*(?<!\\)\|){,7}(.*)'` applied with `re.search`.  `.`
does not match a newline (no `DOTALL`), so the whole match is anchored at
position 0 (zero iterations plus `(.*)` always succeed there) and confined
to the text before the first `'\n'` — the "first line".  Within it the
repeated group's inner `.*` is greedy, so the first (and only) iteration
of the group consumes everything up to and including the *last* pipe
character of the first line not immediately preceded by a backslash;
further iterations fail (no pipe remains before the newline) and the
backtracking engine then accepts, so the `{,7}` bound never comes into
play.  Hence `group(1)` is the prefix of the first line ending at its last
unescaped `|` (or `None` when the first line has no unescaped pipe at
all), and `group(2)` is the remainder of the first line.  `lpsAux` applied
to the newline-free first line computes exactly that split; its `prev`
argument is the character preceding the current position (`none` at the
start of the string), used for the `(?<!\\)` lookbehind. -/

/-- Does scanning `l`, with preceding character `prev`, meet a `|` that is
not immediately preceded by `\`? -/
def hasUnescPipe (prev : Option Char) : PyStr → Bool
  | [] => false
  | c :: t => (c = '|' && prev ≠ some '\\') || hasUnescPipe (some c) t

/-- Number of unescaped pipes met while scanning `l` with preceding
character `prev`. -/
def countUnescPipe (prev : Option Char) : PyStr → Nat
  | [] => 0
  | c :: t =>
    (if c = '|' && prev ≠ some '\\' then 1 else 0) + countUnescPipe (some c) t

/-- Split at the last unescaped pipe: returns `(group(1), group(2))` of the
`HEADER_SEP` match, i.e. the prefix through the last unescaped `|` and the
remainder, or `none` when `group(1)` did not participate. -/
def lpsAux (prev : Option Char) : PyStr → Option (PyStr × PyStr)
  | [] => none
  | c :: t =>
    match lpsAux (some c) t with
    | some (h, e) => some (c :: h, e)
    | none =>
      if c = '|' && prev ≠ some '\\' then some ([c], t) else none

/-- The header/extension boundary of `parse_line`:
`re.search(HEADER_SEP, line)` with `header = group(1)`,
`extensions = group(2)`.  Because `.` does not match `'\n'`, only the text
before the first newline participates: the split happens at the last
unescaped pipe of the first line, and the extension text is the remainder
of that first line. -/
def lps (line : PyStr) : Option (PyStr × PyStr) :=
  lpsAux none (line.takeWhile (fun c => !(c = '\n')))

/-- `re.split(HEADER_SPLIT, header)` with `HEADER_SPLIT = r'(?<!\\)\|'`:
split on unescaped pipes (escaped pipes stay inside the pieces, backslash
included). -/
def splitUnescAux (prev : Option Char) : PyStr → List PyStr
  | [] => [[]]
  | c :: t =>
    if c = '|' && prev ≠ some '\\' then [] :: splitUnescAux (some c) t
    else
      match splitUnescAux (some c) t with
      | [] => [[c]]
      | h :: r => (c :: h) :: r

/-- Split the header span into raw header tokens. -/
def splitUnesc (header : PyStr) : List PyStr :=
  splitUnescAux none header

/-! ## The `SYSLOG_SEP` regular expression

`SYSLOG_SEP = r'[a-zA-Z]{3}\s+[0-9]{,2}\s(?:[[0-9]{2}:*){3}\s+\w+'`,
applied with `re.search` to header token 0.  Note the `[[0-9]` character
class really is "digit or `[`", and the day may be 0–2 digits.  The only
genuine backtracking interplay is between `\s+`, `[0-9]{,2}` and the
following single `\s` (everything later uses pairwise disjoint character
sets), so the matcher below explores exactly the same choices in the same
(greedy, depth-first) order as the Python engine: whitespace-run length
descending, then digit count descending. -/

/-- `[[0-9]`: a digit or a literal `[`. -/
def timeChar (c : Char) : Bool := pyIsDigit c || c = '['

/-- `(?:[[0-9]{2}:*){n}`: `n` repetitions of two time characters followed by
a greedy run of colons; returns the remaining suffix. -/
def syslogTimeIter : Nat → PyStr → Option PyStr
  | 0, s => some s
  | n + 1, c1 :: c2 :: t =>
    if timeChar c1 && timeChar c2 then
      syslogTimeIter n (t.dropWhile (fun c => c = ':'))
    else none
  | _ + 1, _ => none

/-- Trailing `\s+\w+` of the syslog pattern; returns the suffix after the
greedy word run. -/
def syslogTail (s : PyStr) : Option PyStr :=
  match s with
  | c :: t =>
    if pyIsSpace c then
      match t.dropWhile pyIsSpace with
      | w :: v => if pyIsWord w then some (v.dropWhile pyIsWord) else none
      | [] => none
    else none
  | [] => none

/-- After the day digits: a single `\s`, the time group, then the tail. -/
def syslogAfterDigits (s : PyStr) : Option PyStr :=
  match s with
  | c :: rest =>
    if pyIsSpace c then
      match syslogTimeIter 3 rest with
      | some r2 => syslogTail r2
      | none => none
    else none
  | [] => none

/-- Try day-digit counts `nd, nd-1, …, 0` (greedy order); `after` starts at
the first character past the whitespace run, and the initial `nd` is at most
the length of the digit run there. -/
def syslogNdLoop : Nat → PyStr → Option PyStr
  | 0, after => syslogAfterDigits after
  | n + 1, after =>
    match syslogAfterDigits (after.drop (n + 1)) with
    | some r => some r
    | none => syslogNdLoop n after

/-- Try whitespace-run lengths `nws, nws-1, …, 1` (greedy order) for the
`\s+` after the month letters; `t` is the text after the three letters. -/
def syslogNwsLoop : Nat → PyStr → Option PyStr
  | 0, _ => none
  | n + 1, t =>
    let after := t.drop (n + 1)
    let digitRun := (after.takeWhile pyIsDigit).length
    match syslogNdLoop (min 2 digitRun) after with
    | some r => some r
    | none => syslogNwsLoop n t

/-- Attempt a `SYSLOG_SEP` match anchored at the start of `s`; returns the
length of `group(0)` on success. -/
def syslogMatchAt (s : PyStr) : Option Nat :=
  match s with
  | a :: b :: c :: t =>
    if pyIsAlpha a && pyIsAlpha b && pyIsAlpha c then
      match syslogNwsLoop ((t.takeWhile pyIsSpace).length) t with
      | some rest => some (s.length - rest.length)
      | none => none
    else none
  | _ => none

/-- `re.search(SYSLOG_SEP, s)`: leftmost match, returning `group(0)`. -/
def searchSyslog : PyStr → Option PyStr
  | [] => none
  | c :: t =>
    match syslogMatchAt (c :: t) with
    | some n => some ((c :: t).take n)
    | none => searchSyslog t

/-! ## The `EXTENSION_MATCH` regular expression

`EXTENSION_MATCH = r'([^=\s]+)=((?:[\\]=|[^=])+)(?:\s|$)'`, applied with
`re.findall`.  A value is a greedy run of items (`\=` pairs or single
non-`=` characters, so values may span spaces), backtracked item by item
until the next character is whitespace or the end of the text. -/

/-- `[^=\s]`: a key character. -/
def extKeyChar (c : Char) : Bool := !(c = '=') && !pyIsSpace c

/-- Greedy value items: each item is `\=` or a single non-`=` character.
Returns the item list and the text after the maximal run. -/
def extValueItems : PyStr → (List PyStr × PyStr)
  | [] => ([], [])
  | '\\' :: '=' :: t =>
    let (is, r) := extValueItems t
    (['\\', '='] :: is, r)
  | c :: t =>
    if c = '=' then ([], c :: t)
    else
      let (is, r) := extValueItems t
      ([c] :: is, r)

/-- `(?:\s|$)`: the character after the value must be whitespace, or the
value must end the text. -/
def extBoundaryOk : PyStr → Bool
  | [] => true
  | c :: _ => pyIsSpace c

/-- Drop items from the end of the greedy run (first argument is the
reversed item list) until the boundary is acceptable; at least one item
must remain.  Returns the value and the text after it. -/
def extShrink : List PyStr → PyStr → Option (PyStr × PyStr)
  | [], _ => none
  | i :: ris, rest =>
    if extBoundaryOk rest then some ((i :: ris).reverse.flatten, rest)
    else extShrink ris (i ++ rest)

/-- The `re.findall` scan: at each position try to match a `key=value` pair;
on failure advance one character, on success continue after the consumed
boundary whitespace (if any).  Each step advances, so fuel `length + 1`
makes this total without changing the result. -/
def extFindallGo : Nat → PyStr → List (PyStr × PyStr)
  | 0, _ => []
  | _ + 1, [] => []
  | fuel + 1, s@(_ :: t) =>
    let k := s.takeWhile extKeyChar
    if k.isEmpty then extFindallGo fuel t
    else
      match s.dropWhile extKeyChar with
      | '=' :: r2 =>
        let ir := extValueItems r2
        match extShrink ir.1.reverse ir.2 with
        | some (v, rest) =>
          (k, v) ::
            (match rest with
             | [] => []
             | _ :: restAfter => extFindallGo fuel restAfter)
        | none => extFindallGo fuel t
      | _ => extFindallGo fuel t

/-- `re.findall(EXTENSION_MATCH, s)` as the list of `(key, value)` pairs. -/
def extFindall (s : PyStr) : List (PyStr × PyStr) :=
  extFindallGo (s.length + 1) s

/-! ## `datetime` model

Python `datetime` values compare chronologically, which for the validated
values the library constructs is exactly lexicographic comparison of
`(year, month, day, hour, minute, second)`; `DateTime.key` maps into the
lexicographic product order.  Construction (`datetime(...)`, `strptime`,
`replace`) validates the field ranges and raises `ValueError` otherwise. -/

structure DateTime where
  year : Nat
  month : Nat
  day : Nat
  hour : Nat
  minute : Nat
  second : Nat
deriving DecidableEq, Repr

/-- The lexicographic key of a datetime (Python comparison order). -/
abbrev DTKey : Type := ℕ ×ₗ (ℕ ×ₗ (ℕ ×ₗ (ℕ ×ₗ (ℕ ×ₗ ℕ))))

def DateTime.key (d : DateTime) : DTKey :=
  toLex (d.year, toLex (d.month, toLex (d.day, toLex (d.hour, toLex (d.minute, d.second)))))

def isLeap (y : Nat) : Bool :=
  y % 4 = 0 && (!(y % 100 = 0) || y % 400 = 0)

def daysInMonth (y m : Nat) : Nat :=
  if m = 2 then (if isLeap y then 29 else 28)
  else if m = 4 || m = 6 || m = 9 || m = 11 then 30
  else 31

/-- Errors of the Python code, by exception class (`CEFMessageError`,
`UnsupportedValueError` and `IncompleteMessageError` are the library's own;
the rest are builtin exception types the code can raise unhandled). -/
inductive PyErr where
  | cefMessageError
  | unsupportedValueError
  | incompleteMessageError
  | indexError
  | typeError
  | attributeError
  | valueError
  | keyError
deriving DecidableEq, Repr

/-- The `datetime(...)` constructor's field validation (also performed again
by `datetime.replace`). -/
def mkDateTimeChecked (y mo d hh mi ss : Nat) : Except PyErr DateTime :=
  if 1 ≤ y ∧ y ≤ 9999 ∧ 1 ≤ mo ∧ mo ≤ 12 ∧ 1 ≤ d ∧ d ≤ daysInMonth y mo
      ∧ hh ≤ 23 ∧ mi ≤ 59 ∧ ss ≤ 59 then
    .ok ⟨y, mo, d, hh, mi, ss⟩
  else .error .valueError

/-- `dt.replace(year=y)`. -/
def pyReplaceYear (y : Nat) (d : DateTime) : Except PyErr DateTime :=
  mkDateTimeChecked y d.month d.day d.hour d.minute d.second

/-! ## `datetime.strptime(s, '%b %d %H:%M:%S')`

The format compiles to the regular expression
`(?i)(<month abbrevs>)\s+(3[01]|[12]\d|0[1-9]|[1-9])\s+(2[0-3]|[0-1]\d|\d):([0-5]\d|\d):([0-5]\d|\d)`
which must consume the whole string ("unconverted data remains" otherwise);
the matched fields are then passed to the `datetime` constructor with the
default year 1900 (so e.g. `Feb 29` is rejected: 1900 is not a leap year).
Numeric alternatives are tried left to right with backtracking into the
continuation, exactly as below. -/

def monthNum (l : PyStr) : Option Nat :=
  let k := l.map Char.toLower
  if k = ("jan").toList then some 1
  else if k = ("feb").toList then some 2
  else if k = ("mar").toList then some 3
  else if k = ("apr").toList then some 4
  else if k = ("may").toList then some 5
  else if k = ("jun").toList then some 6
  else if k = ("jul").toList then some 7
  else if k = ("aug").toList then some 8
  else if k = ("sep").toList then some 9
  else if k = ("oct").toList then some 10
  else if k = ("nov").toList then some 11
  else if k = ("dec").toList then some 12
  else none

/-- `\s+` (greedy; the characters that follow it in the format are never
whitespace, so no backtracking into the run is needed). -/
def wsRun1 (s : PyStr) : Option PyStr :=
  match s with
  | c :: t => if pyIsSpace c then some (t.dropWhile pyIsSpace) else none
  | [] => none

/-- Try numeric-field candidates in alternation order until the
continuation succeeds. -/
def tryCands {α : Type} (l : List (Nat × PyStr)) (k : Nat → PyStr → Option α) : Option α :=
  match l with
  | [] => none
  | (v, r) :: rest =>
    match k v r with
    | some x => some x
    | none => tryCands rest k

def digitVal (c : Char) : Nat := c.toNat - 48

/-- `%d` alternatives `3[01]|[12]\d|0[1-9]|[1-9]`, in order. -/
def dayCands : PyStr → List (Nat × PyStr)
  | c1 :: c2 :: t =>
    (if pyIsDigit c1 && pyIsDigit c2 then
      (if c1 = '3' && (c2 = '0' || c2 = '1') then [(digitVal c1 * 10 + digitVal c2, t)] else []) ++
      (if c1 = '1' || c1 = '2' then [(digitVal c1 * 10 + digitVal c2, t)] else []) ++
      (if c1 = '0' && !(c2 = '0') then [(digitVal c1 * 10 + digitVal c2, t)] else [])
    else []) ++
    (if pyIsDigit c1 && !(c1 = '0') then [(digitVal c1, c2 :: t)] else [])
  | [c1] => if pyIsDigit c1 && !(c1 = '0') then [(digitVal c1, [])] else []
  | [] => []

/-- `%H` alternatives `2[0-3]|[0-1]\d|\d`, in order. -/
def hourCands : PyStr → List (Nat × PyStr)
  | c1 :: c2 :: t =>
    (if c1 = '2' && pyIsDigit c2 && c2 ≤ '3' then [(20 + digitVal c2, t)] else []) ++
    (if (c1 = '0' || c1 = '1') && pyIsDigit c2 then [(digitVal c1 * 10 + digitVal c2, t)] else []) ++
    (if pyIsDigit c1 then [(digitVal c1, c2 :: t)] else [])
  | [c1] => if pyIsDigit c1 then [(digitVal c1, [])] else []
  | [] => []

/-- `%M`/`%S` alternatives `[0-5]\d|\d`, in order. -/
def minSecCands : PyStr → List (Nat × PyStr)
  | c1 :: c2 :: t =>
    (if pyIsDigit c1 && c1 ≤ '5' && pyIsDigit c2 then [(digitVal c1 * 10 + digitVal c2, t)] else []) ++
    (if pyIsDigit c1 then [(digitVal c1, c2 :: t)] else [])
  | [c1] => if pyIsDigit c1 then [(digitVal c1, [])] else []
  | [] => []

/-- The full-match regex phase of `strptime(s, '%b %d %H:%M:%S')`. -/
def strptimeMatch (s : PyStr) : Option (Nat × Nat × Nat × Nat × Nat) :=
  match s with
  | a :: b :: c :: t =>
    match monthNum [a, b, c] with
    | none => none
    | some mo =>
      match wsRun1 t with
      | none => none
      | some t1 =>
        tryCands (dayCands t1) (fun d t2 =>
          match wsRun1 t2 with
          | none => none
          | some t3 =>
            tryCands (hourCands t3) (fun hh t4 =>
              match t4 with
              | ':' :: t5 =>
                tryCands (minSecCands t5) (fun mi t6 =>
                  match t6 with
                  | ':' :: t7 =>
                    tryCands (minSecCands t7) (fun ss t8 =>
                      match t8 with
                      | [] => some (mo, d, hh, mi, ss)
                      | _ => none)
                  | _ => none)
              | _ => none))
  | _ => none

/-- `datetime.strptime(s, '%b %d %H:%M:%S')`: regex phase, then the
`datetime` constructor with year 1900. -/
def pyStrptime (s : PyStr) : Except PyErr DateTime :=
  match strptimeMatch s with
  | none => .error .valueError
  | some (mo, d, hh, mi, ss) => mkDateTimeChecked 1900 mo d hh mi ss

/-- `dt.strftime('%b %d %H:%M:%S')` (zero-padded day/hour/minute/second). -/
def monthAbbrev (m : Nat) : PyStr :=
  (([("Jan").toList, ("Feb").toList, ("Mar").toList, ("Apr").toList,
     ("May").toList, ("Jun").toList, ("Jul").toList, ("Aug").toList,
     ("Sep").toList, ("Oct").toList, ("Nov").toList, ("Dec").toList]).getD (m - 1) [])

def pad2 (n : Nat) : PyStr :=
  if n < 10 then '0' :: (toString n).toList else (toString n).toList

def strftimeBDHMS (d : DateTime) : PyStr :=
  monthAbbrev d.month ++ ' ' :: pad2 d.day ++ ' ' :: pad2 d.hour ++
    ':' :: pad2 d.minute ++ ':' :: pad2 d.second

/-! ## Python dict model (ordered association lists)

CPython `dict`/`OrderedDict`: insertion of an existing key overwrites its
value in place, insertion of a fresh key appends at the end; `update`
inserts the pairs of its argument in order. -/

def dictGet {κ ν : Type} [BEq κ] (d : List (κ × ν)) (k : κ) : Option ν :=
  match d.find? (fun kv => kv.1 == k) with
  | some kv => some kv.2
  | none => none

def dictInsert {κ ν : Type} [BEq κ] (d : List (κ × ν)) (k : κ) (v : ν) : List (κ × ν) :=
  match d with
  | [] => [(k, v)]
  | kv :: t => if kv.1 == k then (k, v) :: t else kv :: dictInsert t k v

def dictUpdate {κ ν : Type} [BEq κ] (d e : List (κ × ν)) : List (κ × ν) :=
  e.foldl (fun acc kv => dictInsert acc kv.1 kv.2) d

def dictMem {κ ν : Type} [BEq κ] (d : List (κ × ν)) (k : κ) : Bool :=
  (dictGet d k).isSome

instance {ε α : Type} [DecidableEq ε] [DecidableEq α] : DecidableEq (Except ε α) := fun a b =>
  match a, b with
  | .error e, .error f =>
    decidable_of_iff (e = f) ⟨fun h => by rw [h], fun h => by injection h⟩
  | .error _, .ok _ => isFalse (fun h => Except.noConfusion h)
  | .ok _, .error _ => isFalse (fun h => Except.noConfusion h)
  | .ok x, .ok y =>
    decidable_of_iff (x = y) ⟨fun h => by rw [h], fun h => by injection h⟩

/-- Values stored in the `_headers` dict: `Version`/`Severity` are `int`s,
everything else the parser stores is a `str` (but `replace` will store any
caller-supplied value verbatim). -/
inductive PyVal where
  | int (n : Int)
  | str (s : PyStr)
deriving DecidableEq, Repr

/-- Header dict keys (Python string literals of the source). -/
def kPrefix : String := "Prefix"
def kVersion : String := "Version"
def kDeviceVendor : String := "DeviceVendor"
def kDeviceProduct : String := "DeviceProduct"
def kDeviceVersion : String := "DeviceVersion"
def kDeviceEventClassID : String := "DeviceEventClassID"
def kName : String := "Name"
def kSeverity : String := "Severity"

/-! ## `CEFMessage` -/

/-- The `CEFMessage` object: fields `_raw_line`, `_raw_header`,
`_extensions`, `_headers` (both raw-text fields are `None` until the parser
sets them). -/
structure CEFMessage where
  raw_line : Option PyStr
  raw_header : Option PyStr
  _extensions : List (PyStr × PyStr)
  _headers : List (String × PyVal)
deriving DecidableEq, Repr

/-- Property `prefix`: `self._headers['Prefix']` if present, else `None`. -/
def CEFMessage.prefixVal (m : CEFMessage) : Option PyVal :=
  dictGet m._headers kPrefix

/-- Property `version` (`KeyError` when absent, hence `Option`). -/
def CEFMessage.version (m : CEFMessage) : Option PyVal :=
  dictGet m._headers kVersion

def CEFMessage.device_vendor (m : CEFMessage) : Option PyVal :=
  dictGet m._headers kDeviceVendor

def CEFMessage.device_product (m : CEFMessage) : Option PyVal :=
  dictGet m._headers kDeviceProduct

def CEFMessage.device_version (m : CEFMessage) : Option PyVal :=
  dictGet m._headers kDeviceVersion

def CEFMessage.device_event_class_id (m : CEFMessage) : Option PyVal :=
  dictGet m._headers kDeviceEventClassID

def CEFMessage.name (m : CEFMessage) : Option PyVal :=
  dictGet m._headers kName

def CEFMessage.severity (m : CEFMessage) : Option PyVal :=
  dictGet m._headers kSeverity

/-- Property `extensions`: the dict when non-empty, else `None`. -/
def CEFMessage.extensions (m : CEFMessage) : Option (List (PyStr × PyStr)) :=
  if m._extensions.length > 0 then some m._extensions else none

/-- Property `has_syslog_prefix`: `'Prefix' in self._headers`. -/
def CEFMessage.hasSyslogPrefix (m : CEFMessage) : Bool :=
  dictMem m._headers kPrefix

/-- Property `has_extensions`. -/
def CEFMessage.hasExtensions (m : CEFMessage) : Bool :=
  m._extensions.length > 0

/-- Property `timestamp`, with the clock passed explicitly (the code calls
`datetime.utcnow()` three times; all are modelled as the same `now`).
Mirrors: `None` without a prefix; otherwise drop the last space-separated
token of the prefix, `strptime` the rest with `'%b %d %H:%M:%S'`, and move
the result into `now`'s year, or the previous year if that would put it
strictly after `now`.  A non-`str` `Prefix` value (possible via `replace`)
makes `.split(' ')` raise `AttributeError`; a missing key would be a
`KeyError` (unreachable: guarded by `has_syslog_prefix`). -/
def CEFMessage.timestamp (m : CEFMessage) (now : DateTime) : Except PyErr (Option DateTime) :=
  if CEFMessage.hasSyslogPrefix m = false then .ok none
  else
    match dictGet m._headers kPrefix with
    | none => .error .keyError
    | some (.int _) => .error .attributeError
    | some (.str p) =>
      let ts := joinSpace ((pySplitChar ' ' p).dropLast)
      match pyStrptime ts with
      | .error e => .error e
      | .ok t =>
        match pyReplaceYear now.year t with
        | .error e => .error e
        | .ok tcur =>
          if DateTime.key now < DateTime.key tcur then
            match pyReplaceYear (now.year - 1) t with
            | .error e => .error e
            | .ok tprev => .ok (some tprev)
          else
            match pyReplaceYear now.year t with
            | .error e => .error e
            | .ok tc => .ok (some tc)

/-- One entry of the `header_replacements` dict comprehension: present
exactly when the keyword argument is not `None`. -/
def optPair (k : String) (o : Option PyVal) : List (String × PyVal) :=
  match o with
  | none => []
  | some v => [(k, v)]

/-- `{k: v for k, v in header_replacements.items() if v is not None}`: the
non-`None` replacements, in the dict-literal key order of the source. -/
def replaceReps (pre version device_vendor device_product device_version
    device_event_class_id nam severity : Option PyVal) : List (String × PyVal) :=
  optPair kPrefix pre ++ optPair kVersion version ++
    optPair kDeviceVendor device_vendor ++ optPair kDeviceProduct device_product ++
    optPair kDeviceVersion device_version ++
    optPair kDeviceEventClassID device_event_class_id ++
    optPair kName nam ++ optPair kSeverity severity

/-- `CEFMessage.replace`, with the keyword arguments in source order
(`prefix, version, device_vendor, device_product, device_version,
device_event_class_id, name, severity, extensions`); `none` models an
omitted argument.  Deep-copies the receiver (automatic here: values), drops
`None` replacements, `update`s the header dict, and clears/merges the
extension dict; `_raw_line`/`_raw_header` are not regenerated. -/
def CEFMessage.replace (m : CEFMessage)
    (pre version device_vendor device_product device_version
      device_event_class_id nam severity : Option PyVal)
    (extensions : Option (List (PyStr × PyStr))) : CEFMessage :=
  let reps2 := replaceReps pre version device_vendor device_product
    device_version device_event_class_id nam severity
  let headers2 := dictUpdate m._headers reps2
  let ext2 :=
    match extensions with
    | none => m._extensions
    | some e => if e.length = 0 then [] else dictUpdate m._extensions e
  ⟨m.raw_line, m.raw_header, ext2, headers2⟩

/-- Lookup in a list of dict insertions where the last occurrence of a key
wins — the effect of `dict.update` on the keys of its argument. -/
def lastVal {κ ν : Type} [BEq κ] : List (κ × ν) → κ → Option ν
  | [], _ => none
  | kv :: t, k =>
    match lastVal t k with
    | some v => some v
    | none => if kv.1 == k then some kv.2 else none

/-- The character that precedes the final character of `h` inside the full
scanned text (the `prev` context `p` when `h` has fewer than two
characters). -/
def prevOfLast (p : Option Char) (h : PyStr) : Option Char :=
  match h.dropLast.getLast? with
  | some c => some c
  | none => p

/-! ## `parse_line` -/

/-- `int(header_values[0].split(' ')[-1].split(':')[1])` — the `Version`
extraction from header token 0; `[1]` out of range is an (uncaught)
`IndexError`, a non-integer is caught and re-raised as
`UnsupportedValueError`. -/
def versionOf (tok0 : PyStr) : Except PyErr Int :=
  match (pySplitChar ':' ((pySplitChar ' ' tok0).getLastD []))[1]? with
  | none => .error .indexError
  | some vstr =>
    match pyInt vstr with
    | none => .error .unsupportedValueError
    | some v => .ok v

/-- The `header_dict` built by `parse_line`: the optional `Prefix` entry
(inserted first when the syslog pattern matched token 0) followed by the
seven positional fields, in source insertion order. -/
def mkHeaders (pre : Option PyStr) (v : Int) (dv dp dvn dcid nm : PyStr)
    (sev : Int) : List (String × PyVal) :=
  (match pre with
   | some p => [(kPrefix, .str p)]
   | none => []) ++
    [(kVersion, .int v), (kDeviceVendor, .str dv), (kDeviceProduct, .str dp),
     (kDeviceVersion, .str dvn), (kDeviceEventClassID, .str dcid),
     (kName, .str nm), (kSeverity, .int sev)]

/-- The token-processing phase of `parse_line`, after the header/extension
boundary has been found: split the header span (`header_values`), detect a
syslog prefix on token 0, coerce `Version` (token 0) and `Severity`
(token 6), store tokens 1–5 as raw strings, and parse the extension tail.
Missing tokens surface as (uncaught) `IndexError` from the list indexing;
integer failures as `UnsupportedValueError`. -/
def parseTokens (header ext line : PyStr) : Except PyErr CEFMessage :=
  match (splitUnesc header)[0]? with
  | none => .error .indexError
  | some tok0 =>
    match versionOf tok0 with
    | .error e => .error e
    | .ok v =>
      match (splitUnesc header)[1]?, (splitUnesc header)[2]?,
          (splitUnesc header)[3]?, (splitUnesc header)[4]?,
          (splitUnesc header)[5]?, (splitUnesc header)[6]? with
      | some dv, some dp, some dvn, some dcid, some nm, some sv =>
        match pyInt sv with
        | none => .error .unsupportedValueError
        | some sev =>
          .ok ⟨some line, some header, extFindall ext,
            mkHeaders (searchSyslog tok0) v dv dp dvn dcid nm sev⟩
      | _, _, _, _, _, _ => .error .indexError

/-- `parse_line` (the non-`str`-argument `TypeError` guard is unreachable in
a typed embedding; the `if not split_at_header` guard is dead code because
the `HEADER_SEP` pattern always matches).  `group(1)` being `None` raises
`CEFMessageError`. -/
def parse_line (line : PyStr) : Except PyErr CEFMessage :=
  match lps line with
  | none => .error .cefMessageError
  | some (header, ext) => parseTokens header ext line

/-! ## `create_line` -/

/-- `s.replace('|', '\|')`. -/
def escPipes : PyStr → PyStr
  | [] => []
  | c :: t => if c = '|' then '\\' :: '|' :: escPipes t else c :: escPipes t

/-- `create_line`, with `kwargs` as an ordered list of extension pairs and
the clock passed explicitly (used only for a defaulted syslog timestamp). -/
def create_line (version : Int) (dev_vendor dev_product dev_version : PyStr)
    (dev_event_class_id : Int) (nam : PyStr) (severity : Int)
    (set_syslog : Bool) (timestamp : Option DateTime)
    (hostname : Option PyStr) (kwargs : List (PyStr × PyStr))
    (now : DateTime) : Except PyErr CEFMessage :=
  let header0 : PyStr :=
    ("CEF:").toList ++
      List.intercalate ['|']
        [(toString version).toList, escPipes dev_vendor, escPipes dev_product,
         escPipes dev_version, (toString dev_event_class_id).toList,
         escPipes nam, (toString severity).toList] ++ ['|']
  match
    (if set_syslog then
      match hostname with
      | none => Except.error PyErr.incompleteMessageError
      | some [] => Except.error PyErr.incompleteMessageError
      | some h =>
        let sp :=
          (match timestamp with
           | some t => strftimeBDHMS t
           | none => strftimeBDHMS now)
        Except.ok (sp ++ ' ' :: h ++ ' ' :: header0)
     else Except.ok header0) with
  | .error e => .error e
  | .ok header1 =>
    let header2 := kwargs.foldl
      (fun acc kv => acc ++ kv.1 ++ '=' :: kv.2 ++ [' ']) header1
    let header3 := if kwargs.length > 0 then header2.dropLast else header2
    parse_line header3

/-! ## `CEFLog`

The object also initialises a `timerange` attribute to `None`; it is never
read or written again anywhere in the library, so it is omitted from the
model.  `list.sort(key=...)` computes all keys first (raising out of
`append` if a key computation fails, in which case the list keeps the
appended, unsorted order) and then sorts stably; the stable ascending sort
is modelled by left-to-right insertion placing each element after all
elements with keys `≤` its own. -/

structure CEFLog where
  lines : List CEFMessage
deriving DecidableEq, Repr

def CEFLog.isEmpty (log : CEFLog) : Bool :=
  log.lines.length = 0

/-- Property `has_syslog_prefix`: that of the first line, `False` when
empty. -/
def CEFLog.hasSyslogPrefix (log : CEFLog) : Bool :=
  match log.lines with
  | [] => false
  | m :: _ => CEFMessage.hasSyslogPrefix m

/-- Property `start_time`: `lines[0].timestamp` when non-empty. -/
def CEFLog.startTime (log : CEFLog) (now : DateTime) : Except PyErr (Option DateTime) :=
  match log.lines with
  | [] => .ok none
  | m :: _ => CEFMessage.timestamp m now

/-- Property `end_time`: `lines[-1].timestamp` when non-empty. -/
def CEFLog.endTime (log : CEFLog) (now : DateTime) : Except PyErr (Option DateTime) :=
  match log.lines.getLast? with
  | none => .ok none
  | some m => CEFMessage.timestamp m now

/-- The sort key `lambda l: l.timestamp` as a total function; the default is
irrelevant because `append` only sorts when every key computation
succeeded. -/
def tKey (now : DateTime) (m : CEFMessage) : DTKey :=
  match CEFMessage.timestamp m now with
  | .ok (some t) => DateTime.key t
  | _ => DateTime.key ⟨0, 0, 0, 0, 0, 0⟩

/-- Did every sort-key computation succeed (each line's `timestamp` is a
datetime, not `None` and not an exception)? -/
def allKeysOk (now : DateTime) (l : List CEFMessage) : Bool :=
  l.all (fun m =>
    match CEFMessage.timestamp m now with
    | .ok (some _) => true
    | _ => false)

/-- Stable insertion used to model `list.sort`: `x` is placed after every
element whose key is `≤` its own. -/
def pyInsert (now : DateTime) (x : CEFMessage) : List CEFMessage → List CEFMessage
  | [] => [x]
  | y :: ys =>
    if tKey now y ≤ tKey now x then y :: pyInsert now x ys else x :: y :: ys

/-- Stable ascending sort by timestamp key (insertion from the left keeps
ties in input order). -/
def pySort (now : DateTime) (l : List CEFMessage) : List CEFMessage :=
  l.foldl (fun acc x => pyInsert now x acc) []

/-- Errors raised by `CEFLog.append`. -/
inductive LogErr where
  | syslogPrefixError (line : CEFMessage)
  | sortKeyError
deriving DecidableEq, Repr

/-- `CEFLog.append` (the `isinstance` `TypeError` guard is unreachable in a
typed embedding).  Mirrors: reject on prefix-presence mismatch with a
non-empty log (`SyslogPrefixError` carrying the message); otherwise append,
then re-sort by timestamp when the (now non-empty) log has a syslog
prefix.  Returns the new state together with the raised error, if any. -/
def CEFLog.append (log : CEFLog) (line : CEFMessage) (now : DateTime) :
    CEFLog × Option LogErr :=
  if (xor (CEFMessage.hasSyslogPrefix line) (CEFLog.hasSyslogPrefix log)
      && !(CEFLog.isEmpty log)) then
    (log, some (.syslogPrefixError line))
  else
    let lines2 := log.lines ++ [line]
    if CEFLog.hasSyslogPrefix ⟨lines2⟩ then
      if allKeysOk now lines2 then (⟨pySort now lines2⟩, none)
      else (⟨lines2⟩, some .sortKeyError)
    else (⟨lines2⟩, none)

/-- Iterated `append`; stops at the first error, and reports whether every
append succeeded. -/
def appendAll (now : DateTime) : CEFLog → List CEFMessage → CEFLog × Bool
  | log, [] => (log, true)
  | log, m :: ms =>
    match CEFLog.append log m now with
    | (log2, none) => appendAll now log2 ms
    | (log2, some _) => (log2, false)

/-- The time-bound filtering comprehension
`[line for line in self.lines if start_time <= line.timestamp <= end_time]`.
Comparing a bound against `None` (an unprefixed line's timestamp) raises
`TypeError`; a failing timestamp computation propagates. -/
def searchFilter (st et : DateTime) (now : DateTime) :
    List CEFMessage → Except PyErr (List CEFMessage)
  | [] => .ok []
  | l :: ls =>
    match CEFMessage.timestamp l now with
    | .error e => .error e
    | .ok none => .error .typeError
    | .ok (some t) =>
      match searchFilter st et now ls with
      | .error e => .error e
      | .ok rest =>
        .ok (if DateTime.key st ≤ DateTime.key t
                ∧ DateTime.key t ≤ DateTime.key et then l :: rest else rest)

/-- The candidate range shared by both search operations: the lines between
the (defaulted) bounds when the log is prefixed, all lines otherwise.  A
defaulted bound is the log's own `start_time`/`end_time`; those being
`None` would make the chained comparison raise `TypeError`. -/
def searchRange (log : CEFLog) (start_time end_time : Option DateTime)
    (now : DateTime) : Except PyErr (List CEFMessage) :=
  if CEFLog.hasSyslogPrefix log then
    match
      (match start_time with
       | some t => Except.ok t
       | none =>
         match CEFLog.startTime log now with
         | .error e => Except.error e
         | .ok none => Except.error PyErr.typeError
         | .ok (some t) => Except.ok t) with
    | .error e => .error e
    | .ok st =>
      match
        (match end_time with
         | some t => Except.ok t
         | none =>
           match CEFLog.endTime log now with
           | .error e => Except.error e
           | .ok none => Except.error PyErr.typeError
           | .ok (some t) => Except.ok t) with
      | .error e => .error e
      | .ok et => searchFilter st et now log.lines
  else .ok log.lines

/-- The header-value scan of `search_header`:
`[value for value in line.headers.values() if query in value]` evaluates
`query in value` on every value; `in` against an `int` value (`Version`,
`Severity`) raises `TypeError`. -/
def headerMatch (query : PyStr) : List PyVal → Except PyErr Bool
  | [] => .ok false
  | .int _ :: _ => .error .typeError
  | .str s :: vs =>
    match headerMatch query vs with
    | .error e => .error e
    | .ok b => .ok (isSubstr query s || b)

/-- The per-line loop of `search_header`. -/
def searchHeaderLoop (query : PyStr) : List CEFMessage → Except PyErr (List CEFMessage)
  | [] => .ok []
  | l :: ls =>
    match headerMatch query (l._headers.map (fun kv => kv.2)) with
    | .error e => .error e
    | .ok hit =>
      match searchHeaderLoop query ls with
      | .error e => .error e
      | .ok rest => .ok (if hit then l :: rest else rest)

/-- `CEFLog.search_header(query, start_time, end_time)`: filters to the
candidate range, collects the lines some header value of which contains
`query`, and returns `None` (not `[]`) when nothing matched. -/
def CEFLog.search_header (log : CEFLog) (query : PyStr)
    (start_time end_time : Option DateTime) (now : DateTime) :
    Except PyErr (Option (List CEFMessage)) :=
  match searchRange log start_time end_time now with
  | .error e => .error e
  | .ok range =>
    match searchHeaderLoop query range with
    | .error e => .error e
    | .ok results => .ok (if results.length > 0 then some results else none)

/-- The per-line loop of `search_extensions`: reads
`line.extensions.values()` and `line.extensions.keys()` — an
`AttributeError` when the property is `None` (empty extension dict) — then
matches against values, or keys only when `include_keys` and no value
matched. -/
def searchExtLoop (query : PyStr) (include_keys : Bool) :
    List CEFMessage → Except PyErr (List CEFMessage)
  | [] => .ok []
  | l :: ls =>
    match CEFMessage.extensions l with
    | none => .error .attributeError
    | some d =>
      let hitV := d.any (fun kv => isSubstr query kv.2)
      let hitK := include_keys && !hitV && d.any (fun kv => isSubstr query kv.1)
      match searchExtLoop query include_keys ls with
      | .error e => .error e
      | .ok rest => .ok (if hitV || hitK then l :: rest else rest)

/-- `CEFLog.search_extensions(query, start_time, end_time, include_keys)`. -/
def CEFLog.search_extensions (log : CEFLog) (query : PyStr)
    (start_time end_time : Option DateTime) (include_keys : Bool)
    (now : DateTime) : Except PyErr (Option (List CEFMessage)) :=
  match searchRange log start_time end_time now with
  | .error e => .error e
  | .ok range =>
    match searchExtLoop query include_keys range with
    | .error e => .error e
    | .ok results => .ok (if results.length > 0 then some results else none)

/-! ## Concrete inputs used by witnesses and counterexamples -/

/-- The `SAMPLE_LINE` of the library's own test suite. -/
def sampleLine : PyStr :=
  ("Apr 15 22:11:20 testhost CEF:0|Test Vendor|Test Product|Test Version|100|Test Name|100|src=1.1.1.1 dst=1.1.1.2").toList

/-- A fixed clock instant. -/
def now2018 : DateTime := ⟨2018, 4, 20, 0, 0, 0⟩

/-- A minimal syslog-prefixed message with the given prefix text and a
severity marker to tell witnesses apart. -/
def msgWithPrefix (pre : PyStr) (sev : Int) : CEFMessage :=
  ⟨none, none, [], [(kPrefix, .str pre), (kVersion, .int 0), (kSeverity, .int sev)]⟩

/-- A minimal unprefixed message. -/
def msgNoPrefix : CEFMessage :=
  ⟨none, none, [], [(kVersion, .int 0)]⟩

/-- A message whose syslog prefix reads February 29. -/
def feb29Msg : CEFMessage :=
  msgWithPrefix (("Feb 29 12:00:00 host").toList) 1

/-- A line with nine unescaped pipes. -/
def ninePipeLine : PyStr := ("0|1|2|3|4|5|6|7|8|tail").toList

/-! ## Helper lemmas: dict model -/

theorem dictGet_nil {κ ν : Type} [BEq κ] (k : κ) :
    dictGet ([] : List (κ × ν)) k = none := rfl

theorem dictGet_cons {κ ν : Type} [BEq κ] (kv : κ × ν) (t : List (κ × ν)) (k : κ) :
    dictGet (kv :: t) k = if kv.1 == k then some kv.2 else dictGet t k := by
  cases h : kv.1 == k <;> simp [dictGet, List.find?_cons, h]

theorem dictGet_insert {κ ν : Type} [BEq κ] [LawfulBEq κ]
    (d : List (κ × ν)) (k0 k : κ) (v : ν) :
    dictGet (dictInsert d k0 v) k = if k0 == k then some v else dictGet d k := by
  induction d with
  | nil => simp [dictInsert, dictGet_cons, dictGet_nil]
  | cons kv t ih =>
    by_cases h : kv.1 == k0
    · have hkk : kv.1 = k0 := eq_of_beq h
      rw [show dictInsert (kv :: t) k0 v = (k0, v) :: t from by simp [dictInsert, h]]
      rw [dictGet_cons, dictGet_cons]
      by_cases hk : k0 == k
      · simp [hk]
      · have hkv : (kv.1 == k) = false := by
          rw [beq_eq_false_iff_ne, hkk]
          intro he
          exact hk (beq_iff_eq.mpr he)
        simp [hk, hkv]
    · rw [show dictInsert (kv :: t) k0 v = kv :: dictInsert t k0 v from by
        simp [dictInsert, h]]
      rw [dictGet_cons, ih, dictGet_cons]
      by_cases hk : k0 == k
      · have hkv : (kv.1 == k) = false := by
          rw [beq_eq_false_iff_ne]
          intro he
          rw [he, ← eq_of_beq hk] at h
          simp at h
        simp [hk, hkv]
      · simp [hk]

theorem lastVal_append {κ ν : Type} [BEq κ] (a b : List (κ × ν)) (k : κ) :
    lastVal (a ++ b) k =
      match lastVal b k with
      | some v => some v
      | none => lastVal a k := by
  induction a with
  | nil =>
    rw [List.nil_append]
    cases lastVal b k <;> simp [lastVal]
  | cons kv a2 ih =>
    rw [List.cons_append]
    rw [show lastVal (kv :: (a2 ++ b)) k =
      (match lastVal (a2 ++ b) k with
       | some v => some v
       | none => if kv.1 == k then some kv.2 else none) from rfl]
    rw [ih]
    cases lastVal b k <;> cases h2 : lastVal a2 k <;> simp [lastVal, h2]

theorem lastVal_optPair (k0 k : String) (o : Option PyVal) :
    lastVal (optPair k0 o) k = if k0 == k then o else none := by
  cases o with
  | none => simp [optPair, lastVal]
  | some v => by_cases h : k0 == k <;> simp [optPair, lastVal, h]

theorem dictGet_update {κ ν : Type} [BEq κ] [LawfulBEq κ]
    (d e : List (κ × ν)) (k : κ) :
    dictGet (dictUpdate d e) k =
      match lastVal e k with
      | some v => some v
      | none => dictGet d k := by
  induction e generalizing d with
  | nil => cases h : lastVal ([] : List (κ × ν)) k <;> simp_all [dictUpdate, lastVal]
  | cons kv t ih =>
    rw [show dictUpdate d (kv :: t) = dictUpdate (dictInsert d kv.1 kv.2) t from rfl]
    rw [ih]
    rw [show lastVal (kv :: t) k =
      (match lastVal t k with
       | some v => some v
       | none => if kv.1 == k then some kv.2 else none) from rfl]
    cases lastVal t k with
    | some v => rfl
    | none =>
      rw [dictGet_insert]
      by_cases h : kv.1 == k <;> simp [h]

/-! ## Helper lemmas: substring test -/

theorem isSubstr_of_infix {n h : PyStr} (hin : n <:+: h) : isSubstr n h = true := by
  rcases List.infix_iff_prefix_suffix.mp hin with ⟨t, hp, hs⟩
  unfold isSubstr
  rw [List.any_eq_true]
  exact ⟨t, (List.mem_tails t h).mpr hs, List.isPrefixOf_iff_prefix.mpr hp⟩

/-! ## Helper lemmas: the stable sort of `append` -/

theorem mem_pyInsert (now : DateTime) (x z : CEFMessage) (acc : List CEFMessage) :
    z ∈ pyInsert now x acc ↔ z = x ∨ z ∈ acc := by
  induction acc with
  | nil => simp [pyInsert]
  | cons y ys ih =>
    by_cases h : tKey now y ≤ tKey now x
    · simp [pyInsert, h, ih]
      tauto
    · simp [pyInsert, h]

theorem pyInsert_eq_append (now : DateTime) (x : CEFMessage) (acc : List CEFMessage)
    (h : ∀ y ∈ acc, tKey now y ≤ tKey now x) : pyInsert now x acc = acc ++ [x] := by
  induction acc with
  | nil => rfl
  | cons y ys ih =>
    rw [show pyInsert now x (y :: ys) =
      (if tKey now y ≤ tKey now x then y :: pyInsert now x ys
       else x :: y :: ys) from rfl]
    rw [if_pos (h y (List.mem_cons_self y ys))]
    rw [ih (fun z hz => h z (List.mem_cons_of_mem y hz))]
    rfl

theorem pyInsert_sorted (now : DateTime) (x : CEFMessage) (acc : List CEFMessage)
    (h : acc.Pairwise (fun a b => tKey now a ≤ tKey now b)) :
    (pyInsert now x acc).Pairwise (fun a b => tKey now a ≤ tKey now b) := by
  induction acc with
  | nil => simp [pyInsert]
  | cons y ys ih =>
    rcases List.pairwise_cons.mp h with ⟨hy, hys⟩
    by_cases hc : tKey now y ≤ tKey now x
    · rw [show pyInsert now x (y :: ys) = y :: pyInsert now x ys from by
        simp [pyInsert, hc]]
      rw [List.pairwise_cons]
      refine ⟨fun z hz => ?_, ih hys⟩
      rcases (mem_pyInsert now x z ys).mp hz with hzx | hzys
      · rw [hzx]; exact hc
      · exact hy z hzys
    · rw [show pyInsert now x (y :: ys) = x :: y :: ys from by simp [pyInsert, hc]]
      rw [List.pairwise_cons]
      refine ⟨fun z hz => ?_, h⟩
      have hxy : tKey now x ≤ tKey now y := le_of_not_le hc
      rcases List.mem_cons.mp hz with hzy | hzys
      · rw [hzy]; exact hxy
      · exact le_trans hxy (hy z hzys)

theorem pySort_append (now : DateTime) (l : List CEFMessage) (x : CEFMessage) :
    pySort now (l ++ [x]) = pyInsert now x (pySort now l) := by
  simp [pySort, List.foldl_append]

theorem pySort_sorted (now : DateTime) (l : List CEFMessage) :
    (pySort now l).Pairwise (fun a b => tKey now a ≤ tKey now b) := by
  induction l using List.reverseRecOn with
  | nil => simp [pySort]
  | append_singleton l x ih =>
    rw [pySort_append]
    exact pyInsert_sorted now x _ ih

theorem pySort_of_sorted (now : DateTime) (l : List CEFMessage)
    (h : l.Pairwise (fun a b => tKey now a ≤ tKey now b)) : pySort now l = l := by
  induction l using List.reverseRecOn with
  | nil => rfl
  | append_singleton l x ih =>
    rcases List.pairwise_append.mp h with ⟨hl, _, hrel⟩
    rw [pySort_append, ih hl]
    exact pyInsert_eq_append now x l
      (fun y hy => hrel y hy x (List.mem_singleton_self x))

theorem mem_pySort (now : DateTime) (z : CEFMessage) (l : List CEFMessage) :
    z ∈ pySort now l ↔ z ∈ l := by
  induction l using List.reverseRecOn with
  | nil => simp [pySort]
  | append_singleton l x ih =>
    rw [pySort_append]
    rw [mem_pyInsert]
    simp [ih]
    tauto

theorem pyInsert_filter (now : DateTime) (x : CEFMessage) (k : DTKey)
    (acc : List CEFMessage)
    (h : acc.Pairwise (fun a b => tKey now a ≤ tKey now b)) :
    (pyInsert now x acc).filter (fun m => tKey now m == k) =
      if tKey now x == k then
        acc.filter (fun m => tKey now m == k) ++ [x]
      else acc.filter (fun m => tKey now m == k) := by
  induction acc with
  | nil =>
    by_cases hx : tKey now x == k <;> simp [pyInsert, List.filter, hx]
  | cons y ys ih =>
    rcases List.pairwise_cons.mp h with ⟨hy, hys⟩
    by_cases hc : tKey now y ≤ tKey now x
    · rw [show pyInsert now x (y :: ys) = y :: pyInsert now x ys from by
        simp [pyInsert, hc]]
      rw [List.filter_cons, List.filter_cons]
      rw [ih hys]
      by_cases hx : tKey now x == k <;> by_cases hyk : tKey now y == k <;>
        simp [hx, hyk]
    · rw [show pyInsert now x (y :: ys) = x :: y :: ys from by simp [pyInsert, hc]]
      rw [List.filter_cons]
      by_cases hx : tKey now x == k
      · have hxk : tKey now x = k := by exact eq_of_beq hx
        have hnil : (y :: ys).filter (fun m => tKey now m == k) = [] := by
          rw [List.filter_eq_nil_iff]
          intro z hz
          have hyz : tKey now y ≤ tKey now z := by
            rcases List.mem_cons.mp hz with hzy | hzys
            · rw [hzy]
            · exact hy z hzys
          have hlt : tKey now x < tKey now z := lt_of_lt_of_le (not_le.mp hc) hyz
          simp only [beq_iff_eq]
          intro he
          rw [he, hxk] at hlt
          exact lt_irrefl _ hlt
        rw [hnil, hx]
        simp [hnil]
      · simp only [hx, if_false, cond_false]
        simp [hx]

theorem pySort_filter (now : DateTime) (k : DTKey) (l : List CEFMessage) :
    (pySort now l).filter (fun m => tKey now m == k) =
      l.filter (fun m => tKey now m == k) := by
  induction l using List.reverseRecOn with
  | nil => rfl
  | append_singleton l x ih =>
    rw [pySort_append, pyInsert_filter now x k _ (pySort_sorted now l), ih]
    rw [List.filter_append]
    by_cases hx : tKey now x == k <;> simp [List.filter, hx]

/-! ## Helper lemmas: tokenizer -/

theorem lpsAux_eq_none (p : Option Char) (l : PyStr)
    (h : hasUnescPipe p l = false) : lpsAux p l = none := by
  induction l generalizing p with
  | nil => rfl
  | cons c t ih =>
    rw [show hasUnescPipe p (c :: t) =
      ((c = '|' && p ≠ some '\\') || hasUnescPipe (some c) t) from rfl] at h
    rcases Bool.or_eq_false_iff.mp h with ⟨h1, h2⟩
    rw [show lpsAux p (c :: t) =
      (match lpsAux (some c) t with
       | some (h, e) => some (c :: h, e)
       | none => if c = '|' && p ≠ some '\\' then some ([c], t) else none) from rfl]
    rw [ih (some c) h2, h1]
    rfl

theorem lpsAux_ne_none (p : Option Char) (l : PyStr)
    (h : hasUnescPipe p l = true) : lpsAux p l ≠ none := by
  induction l generalizing p with
  | nil => simp [hasUnescPipe] at h
  | cons c t ih =>
    rw [show hasUnescPipe p (c :: t) =
      ((c = '|' && p ≠ some '\\') || hasUnescPipe (some c) t) from rfl] at h
    rw [show lpsAux p (c :: t) =
      (match lpsAux (some c) t with
       | some (h, e) => some (c :: h, e)
       | none => if c = '|' && p ≠ some '\\' then some ([c], t) else none) from rfl]
    cases hrec : lpsAux (some c) t with
    | some q => simp
    | none =>
      rcases Bool.or_eq_true_iff.mp h with h1 | h1
      · rcases Bool.and_eq_true_iff.mp h1 with ⟨ha, hb⟩
        simp [of_decide_eq_true ha, of_decide_eq_true hb]
      · exact absurd hrec (ih (some c) h1)

theorem hasUnescPipe_of_lpsAux_none (p : Option Char) (l : PyStr)
    (h : lpsAux p l = none) : hasUnescPipe p l = false := by
  cases h2 : hasUnescPipe p l with
  | false => rfl
  | true => exact absurd h (lpsAux_ne_none p l h2)

/-- Soundness of the boundary search: the span is the whole prefix up to an
unescaped pipe as its last character, and no unescaped pipe occurs after
it. -/
theorem lpsAux_spec (l : PyStr) (p : Option Char) (h t : PyStr)
    (he : lpsAux p l = some (h, t)) :
    l = h ++ t ∧ h ≠ [] ∧ h.getLast? = some '|' ∧
      prevOfLast p h ≠ some '\\' ∧ hasUnescPipe (some '|') t = false := by
  induction l generalizing p h t with
  | nil => exact absurd he (by simp [lpsAux])
  | cons c l2 ih =>
    rw [show lpsAux p (c :: l2) =
      (match lpsAux (some c) l2 with
       | some (h, e) => some (c :: h, e)
       | none => if c = '|' && p ≠ some '\\' then some ([c], l2) else none) from
        rfl] at he
    cases hrec : lpsAux (some c) l2 with
    | some pair =>
      rcases pair with ⟨h2, t2⟩
      rw [hrec] at he
      simp only [Option.some.injEq, Prod.mk.injEq] at he
      rcases he with ⟨hh, ht⟩
      rcases ih (some c) h2 t2 hrec with ⟨hl, hne, hlast, hprev, htail⟩
      subst hh
      subst ht
      refine ⟨by rw [hl]; rfl, by simp, ?_, ?_, htail⟩
      · rcases List.getLast?_eq_some_iff.mp hlast with ⟨ys, hys⟩
        rw [hys, show c :: (ys ++ ['|']) = (c :: ys) ++ ['|'] from rfl]
        exact List.getLast?_concat _
      · unfold prevOfLast at hprev ⊢
        rw [show (c :: h2).dropLast = c :: h2.dropLast from
          List.dropLast_cons_of_ne_nil hne]
        cases h3 : h2.dropLast.getLast? with
        | some d =>
          rcases List.getLast?_eq_some_iff.mp h3 with ⟨ys, hys⟩
          rw [hys, show c :: (ys ++ [d]) = (c :: ys) ++ [d] from rfl,
            List.getLast?_concat]
          rw [h3] at hprev
          simpa using hprev
        | none =>
          have hd : h2.dropLast = [] := List.getLast?_eq_none_iff.mp h3
          rw [hd]
          rw [h3] at hprev
          simpa using hprev
    | none =>
      rw [hrec] at he
      by_cases hc : c = '|' && p ≠ some '\\'
      · rw [if_pos hc] at he
        simp only [Option.some.injEq, Prod.mk.injEq] at he
        rcases he with ⟨hh, ht⟩
        rcases Bool.and_eq_true_iff.mp hc with ⟨hc1, hc2⟩
        have hcp : c = '|' := by simpa using hc1
        subst hh
        subst ht
        refine ⟨rfl, by simp, by simp [hcp], ?_, ?_⟩
        · unfold prevOfLast
          simp only [List.dropLast_single, List.getLast?_nil]
          simpa using hc2
        · have h8 := hasUnescPipe_of_lpsAux_none (some c) _ hrec
          rw [hcp] at h8
          exact h8
      · rw [if_neg hc] at he
        exact Option.noConfusion he

/-- The boundary search on a text ending in an unescaped pipe finds exactly
that final pipe. -/
theorem lpsAux_append_pipe (p : Option Char) (A : PyStr)
    (h1 : A = [] → p ≠ some '\\') (h2 : A.getLast? ≠ some '\\') :
    lpsAux p (A ++ ['|']) = some (A ++ ['|'], []) := by
  induction A generalizing p with
  | nil =>
    have hp := h1 rfl
    rw [List.nil_append]
    rw [show lpsAux p ['|'] =
      (match lpsAux (some '|') ([] : PyStr) with
       | some (h, e) => some ('|' :: h, e)
       | none =>
         if '|' = '|' && p ≠ some '\\' then some (['|'], ([] : PyStr))
         else none) from rfl]
    rw [show lpsAux (some '|') ([] : PyStr) = none from rfl]
    simp [hp]
  | cons a A2 ih =>
    have hih1 : A2 = [] → some a ≠ some '\\' := by
      intro hA2
      subst hA2
      simpa using h2
    have hih2 : A2.getLast? ≠ some '\\' := by
      cases A2 with
      | nil => simp
      | cons b t =>
        rw [← List.getLast?_cons_cons (a := a)]
        exact h2
    rw [show (a :: A2) ++ ['|'] = a :: (A2 ++ ['|']) from rfl]
    rw [show lpsAux p (a :: (A2 ++ ['|'])) =
      (match lpsAux (some a) (A2 ++ ['|']) with
       | some (h, e) => some (a :: h, e)
       | none =>
         if a = '|' && p ≠ some '\\' then some ([a], A2 ++ ['|']) else none) from
        rfl]
    rw [ih (some a) hih1 hih2]

/-- Splitting on unescaped pipes peels off a pipe-free, non-escaping block
before an unescaped pipe as one token. -/
theorem splitUnescAux_comp (p : Option Char) (X R : PyStr)
    (hX : hasUnescPipe p X = false)
    (h1 : X = [] → p ≠ some '\\') (h2 : X.getLast? ≠ some '\\') :
    splitUnescAux p (X ++ '|' :: R) = X :: splitUnescAux (some '|') R := by
  induction X generalizing p with
  | nil =>
    have hp := h1 rfl
    rw [List.nil_append]
    rw [show splitUnescAux p ('|' :: R) =
      (if '|' = '|' && p ≠ some '\\' then [] :: splitUnescAux (some '|') R
       else
        match splitUnescAux (some '|') R with
        | [] => [['|']]
        | h :: r => ('|' :: h) :: r) from rfl]
    simp [hp]
  | cons c X2 ih =>
    rw [show hasUnescPipe p (c :: X2) =
      ((c = '|' && p ≠ some '\\') || hasUnescPipe (some c) X2) from rfl] at hX
    rcases Bool.or_eq_false_iff.mp hX with ⟨hc, hX2⟩
    have hih1 : X2 = [] → some c ≠ some '\\' := by
      intro hX2n
      subst hX2n
      simpa using h2
    have hih2 : X2.getLast? ≠ some '\\' := by
      cases X2 with
      | nil => simp
      | cons b t =>
        rw [← List.getLast?_cons_cons (a := c)]
        exact h2
    rw [show (c :: X2) ++ '|' :: R = c :: (X2 ++ '|' :: R) from rfl]
    rw [show splitUnescAux p (c :: (X2 ++ '|' :: R)) =
      (if c = '|' && p ≠ some '\\' then
        [] :: splitUnescAux (some c) (X2 ++ '|' :: R)
       else
        match splitUnescAux (some c) (X2 ++ '|' :: R) with
        | [] => [[c]]
        | h :: r => (c :: h) :: r) from rfl]
    rw [hc]
    rw [ih (some c) hX2 hih1 hih2]
    simp

/-- Every pipe of `escPipes v` is immediately preceded by a backslash. -/
theorem hasUnescPipe_escPipes (p : Option Char) (v : PyStr) :
    hasUnescPipe p (escPipes v) = false := by
  induction v generalizing p with
  | nil => rfl
  | cons c t ih =>
    by_cases hc : c = '|'
    · rw [show escPipes (c :: t) = '\\' :: '|' :: escPipes t from by
        simp [escPipes, hc]]
      rw [show hasUnescPipe p ('\\' :: '|' :: escPipes t) =
        (('\\' = '|' && p ≠ some '\\') ||
          (('|' = '|' && some '\\' ≠ some '\\') ||
            hasUnescPipe (some '|') (escPipes t))) from rfl]
      simp [ih]
    · rw [show escPipes (c :: t) = c :: escPipes t from by simp [escPipes, hc]]
      rw [show hasUnescPipe p (c :: escPipes t) =
        ((c = '|' && p ≠ some '\\') || hasUnescPipe (some c) (escPipes t)) from
        rfl]
      simp [hc, ih]

theorem escPipes_eq_nil_iff (v : PyStr) : escPipes v = [] ↔ v = [] := by
  cases v with
  | nil => simp [escPipes]
  | cons c t =>
    constructor
    · intro h
      by_cases hc : c = '|' <;> simp [escPipes, hc] at h
    · intro h
      exact List.noConfusion h

theorem escPipes_getLast (v : PyStr) (hv : v.getLast? ≠ some '\\') :
    (escPipes v).getLast? ≠ some '\\' := by
  induction v with
  | nil => simp [escPipes]
  | cons c t ih =>
    cases ht : t with
    | nil =>
      rw [ht] at hv
      have hc2 : c ≠ '\\' := by simpa using hv
      by_cases hc : c = '|'
      · rw [show escPipes [c] = ['\\', '|'] from by simp [escPipes, hc]]
        simp
      · rw [show escPipes [c] = [c] from by simp [escPipes, hc]]
        simpa using hc2
    | cons b t2 =>
      have hvt : t.getLast? ≠ some '\\' := by
        rw [ht] at hv ⊢
        rw [← List.getLast?_cons_cons (a := c)]
        exact hv
      rw [← ht]
      have hne : escPipes t ≠ [] := by
        rw [ht]
        intro hx
        rcases (escPipes_eq_nil_iff (b :: t2)).mp hx with h9
        exact List.noConfusion h9
      rcases List.exists_cons_of_ne_nil hne with ⟨d, t3, hdt⟩
      have tail_eq : ∀ pre : PyStr, (pre ++ escPipes t).getLast? = (escPipes t).getLast? := by
        intro pre
        rw [List.getLast?_append, hdt]
        cases h9 : (d :: t3).getLast? with
        | none => simp at h9
        | some z => simp
      by_cases hc : c = '|'
      · rw [show escPipes (c :: t) = ['\\', '|'] ++ escPipes t from by
          simp [escPipes, hc]]
        rw [tail_eq]
        exact ih hvt
      · rw [show escPipes (c :: t) = [c] ++ escPipes t from by simp [escPipes, hc]]
        rw [tail_eq]
        exact ih hvt

/-- Escaping introduces no characters other than backslashes. -/
theorem mem_escPipes (c : Char) (v : PyStr) (h : c ∈ escPipes v) :
    c ∈ v ∨ c = '\\' := by
  induction v with
  | nil => exact absurd h (by simp [escPipes])
  | cons a t ih =>
    by_cases ha : a = '|'
    · rw [show escPipes (a :: t) = '\\' :: '|' :: escPipes t from by
        simp [escPipes, ha]] at h
      rcases List.mem_cons.mp h with h1 | h1
      · exact Or.inr h1
      · rcases List.mem_cons.mp h1 with h2 | h2
        · exact Or.inl (by rw [h2, ha]; exact List.mem_cons_self _ t)
        · rcases ih h2 with h3 | h3
          · exact Or.inl (List.mem_cons_of_mem a h3)
          · exact Or.inr h3
    · rw [show escPipes (a :: t) = a :: escPipes t from by simp [escPipes, ha]] at h
      rcases List.mem_cons.mp h with h1 | h1
      · exact Or.inl (by rw [h1]; exact List.mem_cons_self a t)
      · rcases ih h1 with h3 | h3
        · exact Or.inl (List.mem_cons_of_mem a h3)
        · exact Or.inr h3

/-! ## Helper lemmas: `append` on prefixed logs -/

theorem append_prefixed (now : DateTime) (done : List CEFMessage) (m : CEFMessage)
    (hd : ∀ x ∈ done, CEFMessage.hasSyslogPrefix x = true)
    (hm : CEFMessage.hasSyslogPrefix m = true) :
    CEFLog.append ⟨pySort now done⟩ m now =
      (if allKeysOk now (pySort now done ++ [m]) then
        (⟨pySort now (done ++ [m])⟩, none)
       else (⟨pySort now done ++ [m]⟩, some .sortKeyError)) := by
  have hcond :
      (xor (CEFMessage.hasSyslogPrefix m)
          (CEFLog.hasSyslogPrefix ⟨pySort now done⟩)
        && !(CEFLog.isEmpty ⟨pySort now done⟩)) = false := by
    cases hdone : pySort now done with
    | nil => simp [CEFLog.isEmpty, hdone]
    | cons h0 t0 =>
      have hh0 : h0 ∈ done := by
        rw [← mem_pySort now h0 done, hdone]
        exact List.mem_cons_self h0 t0
      have h5 : CEFLog.hasSyslogPrefix ⟨h0 :: t0⟩ = true := hd h0 hh0
      rw [hm, h5]
      rfl
  have hpre2 : CEFLog.hasSyslogPrefix ⟨pySort now done ++ [m]⟩ = true := by
    cases hdone : pySort now done with
    | nil => simpa [CEFLog.hasSyslogPrefix, hdone] using hm
    | cons h0 t0 =>
      have hh0 : h0 ∈ done := by
        rw [← mem_pySort now h0 done, hdone]
        exact List.mem_cons_self h0 t0
      simpa [CEFLog.hasSyslogPrefix, hdone] using hd h0 hh0
  rw [show CEFLog.append ⟨pySort now done⟩ m now =
    (if (xor (CEFMessage.hasSyslogPrefix m)
          (CEFLog.hasSyslogPrefix ⟨pySort now done⟩)
        && !(CEFLog.isEmpty ⟨pySort now done⟩)) then
      (⟨pySort now done⟩, some (.syslogPrefixError m))
     else
      if CEFLog.hasSyslogPrefix ⟨pySort now done ++ [m]⟩ then
        if allKeysOk now (pySort now done ++ [m]) then
          (⟨pySort now (pySort now done ++ [m])⟩, none)
        else (⟨pySort now done ++ [m]⟩, some .sortKeyError)
      else (⟨pySort now done ++ [m]⟩, none)) from rfl]
  rw [hcond, hpre2]
  rw [show pySort now (pySort now done ++ [m]) =
    pyInsert now m (pySort now (pySort now done)) from pySort_append now _ m]
  rw [pySort_of_sorted now (pySort now done) (pySort_sorted now done)]
  rw [← pySort_append now done m]
  rfl

theorem appendAll_ok (now : DateTime) (ms : List CEFMessage) :
    ∀ done : List CEFMessage,
      (∀ x ∈ done, CEFMessage.hasSyslogPrefix x = true) →
      (∀ x ∈ ms, CEFMessage.hasSyslogPrefix x = true) →
      (appendAll now ⟨pySort now done⟩ ms).2 = true →
      (appendAll now ⟨pySort now done⟩ ms).1.lines = pySort now (done ++ ms) := by
  induction ms with
  | nil =>
    intro done _ _ _
    simp [appendAll]
  | cons m ms2 ih =>
    intro done hd hm hok
    rw [show appendAll now ⟨pySort now done⟩ (m :: ms2) =
      (match CEFLog.append ⟨pySort now done⟩ m now with
       | (log2, none) => appendAll now log2 ms2
       | (log2, some _) => (log2, false)) from rfl] at hok ⊢
    rw [append_prefixed now done m hd (hm m (List.mem_cons_self m ms2))] at hok ⊢
    by_cases hak : allKeysOk now (pySort now done ++ [m]) = true
    · rw [if_pos hak] at hok ⊢
      have hok2 : (appendAll now ⟨pySort now (done ++ [m])⟩ ms2).2 = true := hok
      have hd2 : ∀ x ∈ done ++ [m], CEFMessage.hasSyslogPrefix x = true := by
        intro x hx
        rcases List.mem_append.mp hx with hx1 | hx1
        · exact hd x hx1
        · rw [List.mem_singleton.mp hx1]
          exact hm m (List.mem_cons_self m ms2)
      have hm2 : ∀ x ∈ ms2, CEFMessage.hasSyslogPrefix x = true := by
        intro x hx
        exact hm x (List.mem_cons_of_mem m hx)
      have hres := ih (done ++ [m]) hd2 hm2 hok2
      show (appendAll now ⟨pySort now (done ++ [m])⟩ ms2).1.lines =
        pySort now (done ++ m :: ms2)
      rw [hres, List.append_assoc]
      rfl
    · rw [if_neg hak] at hok
      exact absurd hok Bool.false_ne_true

/-! ## Helper lemmas: datetime -/

theorem mkDateTimeChecked_ok {y mo d hh mi ss : Nat} {t : DateTime}
    (h : mkDateTimeChecked y mo d hh mi ss = .ok t) :
    t = ⟨y, mo, d, hh, mi, ss⟩ ∧ 1 ≤ y ∧ y ≤ 9999 ∧ 1 ≤ mo ∧ mo ≤ 12 ∧
      1 ≤ d ∧ d ≤ daysInMonth y mo ∧ hh ≤ 23 ∧ mi ≤ 59 ∧ ss ≤ 59 := by
  unfold mkDateTimeChecked at h
  by_cases hc : 1 ≤ y ∧ y ≤ 9999 ∧ 1 ≤ mo ∧ mo ≤ 12 ∧ 1 ≤ d ∧
      d ≤ daysInMonth y mo ∧ hh ≤ 23 ∧ mi ≤ 59 ∧ ss ≤ 59
  · rw [if_pos hc] at h
    refine ⟨?_, hc.1, hc.2.1, hc.2.2.1, hc.2.2.2.1, hc.2.2.2.2.1,
      hc.2.2.2.2.2.1, hc.2.2.2.2.2.2.1, hc.2.2.2.2.2.2.2.1, hc.2.2.2.2.2.2.2.2⟩
    injection h with h2
    exact h2.symm
  · rw [if_neg hc] at h
    exact Except.noConfusion h

/-- 1900 (not a leap year) has the fewest days in every month. -/
theorem daysInMonth_1900_le (y mo : Nat) : daysInMonth 1900 mo ≤ daysInMonth y mo := by
  unfold daysInMonth
  by_cases h2 : mo = 2
  · rw [if_pos h2, if_pos h2]
    rw [show isLeap 1900 = false from by decide]
    cases isLeap y <;> simp
  · rw [if_neg h2, if_neg h2]

/-- Moving a `strptime`d (year-1900) datetime into any representable year
succeeds: its day count is within every year's month length. -/
theorem pyReplaceYear_ok {s : PyStr} {t : DateTime} (y : Nat)
    (hp : pyStrptime s = .ok t) (hy1 : 1 ≤ y) (hy2 : y ≤ 9999) :
    pyReplaceYear y t = .ok ⟨y, t.month, t.day, t.hour, t.minute, t.second⟩ := by
  unfold pyStrptime at hp
  cases hm : strptimeMatch s with
  | none => rw [hm] at hp; exact Except.noConfusion hp
  | some q =>
    rw [hm] at hp
    rcases q with ⟨mo, d, hh, mi, ss⟩
    rcases mkDateTimeChecked_ok hp with
      ⟨ht, _, _, hmo1, hmo2, hd1, hd2, hhh, hmi, hss⟩
    subst ht
    unfold pyReplaceYear mkDateTimeChecked
    rw [if_pos]
    exact ⟨hy1, hy2, hmo1, hmo2, hd1,
      le_trans hd2 (daysInMonth_1900_le y mo), hhh, hmi, hss⟩

/-! ## Helper lemmas: the replacement dict of `replace` -/

theorem lastVal_reps_kPrefix (o1 o2 o3 o4 o5 o6 o7 o8 : Option PyVal) :
    lastVal (replaceReps o1 o2 o3 o4 o5 o6 o7 o8) kPrefix = o1 := by
  simp [replaceReps, lastVal_append, lastVal_optPair, kPrefix, kVersion,
    kDeviceVendor, kDeviceProduct, kDeviceVersion, kDeviceEventClassID,
    kName, kSeverity]

theorem lastVal_reps_kVersion (o1 o2 o3 o4 o5 o6 o7 o8 : Option PyVal) :
    lastVal (replaceReps o1 o2 o3 o4 o5 o6 o7 o8) kVersion = o2 := by
  simp [replaceReps, lastVal_append, lastVal_optPair, kPrefix, kVersion,
    kDeviceVendor, kDeviceProduct, kDeviceVersion, kDeviceEventClassID,
    kName, kSeverity]
  cases o2 <;> rfl

theorem lastVal_reps_kDeviceVendor (o1 o2 o3 o4 o5 o6 o7 o8 : Option PyVal) :
    lastVal (replaceReps o1 o2 o3 o4 o5 o6 o7 o8) kDeviceVendor = o3 := by
  simp [replaceReps, lastVal_append, lastVal_optPair, kPrefix, kVersion,
    kDeviceVendor, kDeviceProduct, kDeviceVersion, kDeviceEventClassID,
    kName, kSeverity]
  cases o3 <;> rfl

theorem lastVal_reps_kDeviceProduct (o1 o2 o3 o4 o5 o6 o7 o8 : Option PyVal) :
    lastVal (replaceReps o1 o2 o3 o4 o5 o6 o7 o8) kDeviceProduct = o4 := by
  simp [replaceReps, lastVal_append, lastVal_optPair, kPrefix, kVersion,
    kDeviceVendor, kDeviceProduct, kDeviceVersion, kDeviceEventClassID,
    kName, kSeverity]
  cases o4 <;> rfl

theorem lastVal_reps_kDeviceVersion (o1 o2 o3 o4 o5 o6 o7 o8 : Option PyVal) :
    lastVal (replaceReps o1 o2 o3 o4 o5 o6 o7 o8) kDeviceVersion = o5 := by
  simp [replaceReps, lastVal_append, lastVal_optPair, kPrefix, kVersion,
    kDeviceVendor, kDeviceProduct, kDeviceVersion, kDeviceEventClassID,
    kName, kSeverity]
  cases o5 <;> rfl

theorem lastVal_reps_kDeviceEventClassID (o1 o2 o3 o4 o5 o6 o7 o8 : Option PyVal) :
    lastVal (replaceReps o1 o2 o3 o4 o5 o6 o7 o8) kDeviceEventClassID = o6 := by
  simp [replaceReps, lastVal_append, lastVal_optPair, kPrefix, kVersion,
    kDeviceVendor, kDeviceProduct, kDeviceVersion, kDeviceEventClassID,
    kName, kSeverity]
  cases o6 <;> rfl

theorem lastVal_reps_kName (o1 o2 o3 o4 o5 o6 o7 o8 : Option PyVal) :
    lastVal (replaceReps o1 o2 o3 o4 o5 o6 o7 o8) kName = o7 := by
  simp [replaceReps, lastVal_append, lastVal_optPair, kPrefix, kVersion,
    kDeviceVendor, kDeviceProduct, kDeviceVersion, kDeviceEventClassID,
    kName, kSeverity]
  cases o7 <;> rfl

theorem lastVal_reps_kSeverity (o1 o2 o3 o4 o5 o6 o7 o8 : Option PyVal) :
    lastVal (replaceReps o1 o2 o3 o4 o5 o6 o7 o8) kSeverity = o8 := by
  simp [replaceReps, lastVal_append, lastVal_optPair, kPrefix, kVersion,
    kDeviceVendor, kDeviceProduct, kDeviceVersion, kDeviceEventClassID,
    kName, kSeverity]
  cases o8 <;> rfl

/-! ## Claims -/

/-- Claim C1 (code bug): `search_header` never returns matches on a log of
parsed messages — the header dict always contains the integer `Version`
value, and the membership test `query in value` against an `int` raises
`TypeError`.  Evaluated at the failing input: a log holding the parsed
`SAMPLE_LINE` of the test suite, queried for `"Test"` (which does occur as
a substring of several header values). -/
theorem c1_search_header_type_error :
    (match parse_line sampleLine with
     | .ok m => CEFLog.search_header ⟨[m]⟩ (("Test").toList) none none now2018
     | .error e => .error e) = .error .typeError := by decide

/-- Claim C5: appending a message whose `has_syslog_prefix` differs from a
non-empty log's raises `SyslogPrefixError` carrying the offending message,
and the log's line sequence is returned unchanged. -/
theorem c5_append_mismatch (log : CEFLog) (m : CEFMessage) (now : DateTime)
    (hne : log.lines ≠ [])
    (hdiff : CEFMessage.hasSyslogPrefix m ≠ CEFLog.hasSyslogPrefix log) :
    CEFLog.append log m now = (log, some (.syslogPrefixError m)) := by
  unfold CEFLog.append
  rw [if_pos]
  cases hm : CEFMessage.hasSyslogPrefix m <;>
    cases hl : CEFLog.hasSyslogPrefix log
  · rw [hm, hl] at hdiff; exact absurd rfl hdiff
  · have hbe : CEFLog.isEmpty log = false := by
      unfold CEFLog.isEmpty
      simpa using hne
    rw [hbe]
    rfl
  · have hbe : CEFLog.isEmpty log = false := by
      unfold CEFLog.isEmpty
      simpa using hne
    rw [hbe]
    rfl
  · rw [hm, hl] at hdiff; exact absurd rfl hdiff

/-- Witness for C5: a one-line prefixed log rejects an unprefixed message
and keeps its single line. -/
theorem c5_append_mismatch_witness :
    CEFLog.append ⟨[msgWithPrefix (("Apr 15 22:11:20 h").toList) 1]⟩
        msgNoPrefix now2018 =
      (⟨[msgWithPrefix (("Apr 15 22:11:20 h").toList) 1]⟩,
        some (.syslogPrefixError msgNoPrefix)) :=
  c5_append_mismatch _ _ _ (by decide) (by decide)

/-- Claim C10: `replace` stores non-null header overrides verbatim, without
coercion or validation — the new `Severity`/`Version` value is exactly the
supplied value, integer-parseable or not. -/
theorem c10_replace_verbatim (m : CEFMessage) (v : PyVal) :
    CEFMessage.severity
        (CEFMessage.replace m none none none none none none none (some v) none) =
      some v ∧
    CEFMessage.version
        (CEFMessage.replace m none (some v) none none none none none none none) =
      some v := by
  constructor
  · unfold CEFMessage.severity CEFMessage.replace
    rw [dictGet_update]
    rw [show replaceReps none none none none none none none (some v) =
      [(kSeverity, v)] from rfl]
    rw [show lastVal [(kSeverity, v)] kSeverity = some v from by
      simp [lastVal]]
  · unfold CEFMessage.version CEFMessage.replace
    rw [dictGet_update]
    rw [show replaceReps none (some v) none none none none none none =
      [(kVersion, v)] from rfl]
    rw [show lastVal [(kVersion, v)] kVersion = some v from by
      simp [lastVal]]

/-- Claim C8: `replace` is a frame-respecting copy: the receiver is a value
(never mutated — the embedding's `replace` builds a fresh record from a
deep copy), `raw_line`/`raw_header` are carried over unchanged (never
regenerated), each header field with a null override keeps its value, and
extensions are kept / cleared / merged-with-overwrite according to the
omitted / empty / non-empty override. -/
theorem c8_replace_frame (m : CEFMessage) (o1 o2 o3 o4 o5 o6 o7 o8 : Option PyVal)
    (ext : Option (List (PyStr × PyStr))) :
    (CEFMessage.replace m o1 o2 o3 o4 o5 o6 o7 o8 ext).raw_line = m.raw_line ∧
    (CEFMessage.replace m o1 o2 o3 o4 o5 o6 o7 o8 ext).raw_header = m.raw_header ∧
    (o1 = none →
      dictGet (CEFMessage.replace m o1 o2 o3 o4 o5 o6 o7 o8 ext)._headers kPrefix =
        dictGet m._headers kPrefix) ∧
    (o2 = none →
      dictGet (CEFMessage.replace m o1 o2 o3 o4 o5 o6 o7 o8 ext)._headers kVersion =
        dictGet m._headers kVersion) ∧
    (o3 = none →
      dictGet (CEFMessage.replace m o1 o2 o3 o4 o5 o6 o7 o8 ext)._headers kDeviceVendor =
        dictGet m._headers kDeviceVendor) ∧
    (o4 = none →
      dictGet (CEFMessage.replace m o1 o2 o3 o4 o5 o6 o7 o8 ext)._headers kDeviceProduct =
        dictGet m._headers kDeviceProduct) ∧
    (o5 = none →
      dictGet (CEFMessage.replace m o1 o2 o3 o4 o5 o6 o7 o8 ext)._headers kDeviceVersion =
        dictGet m._headers kDeviceVersion) ∧
    (o6 = none →
      dictGet (CEFMessage.replace m o1 o2 o3 o4 o5 o6 o7 o8 ext)._headers kDeviceEventClassID =
        dictGet m._headers kDeviceEventClassID) ∧
    (o7 = none →
      dictGet (CEFMessage.replace m o1 o2 o3 o4 o5 o6 o7 o8 ext)._headers kName =
        dictGet m._headers kName) ∧
    (o8 = none →
      dictGet (CEFMessage.replace m o1 o2 o3 o4 o5 o6 o7 o8 ext)._headers kSeverity =
        dictGet m._headers kSeverity) ∧
    (ext = none →
      (CEFMessage.replace m o1 o2 o3 o4 o5 o6 o7 o8 ext)._extensions = m._extensions) ∧
    (ext = some [] →
      (CEFMessage.replace m o1 o2 o3 o4 o5 o6 o7 o8 ext)._extensions = []) ∧
    (∀ e, ext = some e → e ≠ [] → ∀ k,
      dictGet (CEFMessage.replace m o1 o2 o3 o4 o5 o6 o7 o8 ext)._extensions k =
        (match lastVal e k with
         | some v => some v
         | none => dictGet m._extensions k)) := by
  have hH : (CEFMessage.replace m o1 o2 o3 o4 o5 o6 o7 o8 ext)._headers =
      dictUpdate m._headers (replaceReps o1 o2 o3 o4 o5 o6 o7 o8) := rfl
  refine ⟨rfl, rfl, ?_, ?_, ?_, ?_, ?_, ?_, ?_, ?_, ?_, ?_, ?_⟩
  · intro h
    rw [hH, dictGet_update, lastVal_reps_kPrefix, h]
  · intro h
    rw [hH, dictGet_update, lastVal_reps_kVersion, h]
  · intro h
    rw [hH, dictGet_update, lastVal_reps_kDeviceVendor, h]
  · intro h
    rw [hH, dictGet_update, lastVal_reps_kDeviceProduct, h]
  · intro h
    rw [hH, dictGet_update, lastVal_reps_kDeviceVersion, h]
  · intro h
    rw [hH, dictGet_update, lastVal_reps_kDeviceEventClassID, h]
  · intro h
    rw [hH, dictGet_update, lastVal_reps_kName, h]
  · intro h
    rw [hH, dictGet_update, lastVal_reps_kSeverity, h]
  · intro h
    subst h
    rfl
  · intro h
    subst h
    rfl
  · intro e he hne k
    subst he
    have hx : (CEFMessage.replace m o1 o2 o3 o4 o5 o6 o7 o8 (some e))._extensions =
        (if e.length = 0 then [] else dictUpdate m._extensions e) := rfl
    rw [hx, if_neg (by simpa using hne), dictGet_update]
    cases lastVal e k <;> rfl

/-- Witness for C8: a merge override updates the extension dict and an
omitted override leaves it untouched, on a concrete message. -/
theorem c8_replace_frame_witness :
    dictGet (CEFMessage.replace msgNoPrefix none none none none none none none
        none (some [((("k").toList), (("v").toList))]))._extensions (("k").toList) =
      (match lastVal [((("k").toList), (("v").toList))] (("k").toList) with
       | some v => some v
       | none => dictGet msgNoPrefix._extensions (("k").toList)) ∧
    (CEFMessage.replace msgNoPrefix (some (.str (("p").toList))) none none none
        none none none none none)._extensions = msgNoPrefix._extensions :=
  ⟨(c8_replace_frame msgNoPrefix none none none none none none none none
      (some [((("k").toList), (("v").toList))])).2.2.2.2.2.2.2.2.2.2.2.2
      _ rfl (by decide) _,
   (c8_replace_frame msgNoPrefix (some (.str (("p").toList))) none none none
      none none none none none).2.2.2.2.2.2.2.2.2.2.1 rfl⟩

/-- Claim C9: if any message of the candidate range has an empty extension
dict, `search_extensions` raises `AttributeError` (the `extensions`
property yields `None`, whose `.values()` the loop reads unconditionally)
rather than treating the message as a non-match; when every candidate has
at least one extension, the search completes normally. -/
theorem c9_search_extensions_attr_error (log : CEFLog) (query : PyStr)
    (start_time end_time : Option DateTime) (include_keys : Bool)
    (now : DateTime) (cs : List CEFMessage)
    (hr : searchRange log start_time end_time now = .ok cs) :
    ((∃ m ∈ cs, m._extensions = []) →
      CEFLog.search_extensions log query start_time end_time include_keys now =
        .error .attributeError) ∧
    ((∀ m ∈ cs, m._extensions ≠ []) →
      ∃ r, CEFLog.search_extensions log query start_time end_time include_keys now =
        .ok r) := by
  constructor
  · intro hex
    have hloop : searchExtLoop query include_keys cs = .error .attributeError := by
      rcases hex with ⟨m, hm, hme⟩
      clear hr
      induction cs with
      | nil => exact absurd hm (List.not_mem_nil m)
      | cons l ls ih =>
        rw [show searchExtLoop query include_keys (l :: ls) =
          (match CEFMessage.extensions l with
           | none => .error .attributeError
           | some d =>
             match searchExtLoop query include_keys ls with
             | .error e => .error e
             | .ok rest =>
               .ok (if d.any (fun kv => isSubstr query kv.2) ||
                     (include_keys && !(d.any (fun kv => isSubstr query kv.2)) &&
                       d.any (fun kv => isSubstr query kv.1)) then l :: rest
                    else rest)) from rfl]
        rcases List.mem_cons.mp hm with hml | hml
        · rw [show CEFMessage.extensions l = none from by
            rw [← hml]
            unfold CEFMessage.extensions
            rw [hme]
            rfl]
        · cases hl : CEFMessage.extensions l with
          | none => rfl
          | some d => rw [ih hml]
    unfold CEFLog.search_extensions
    rw [hr]
    show (match searchExtLoop query include_keys cs with
      | Except.error e => Except.error e
      | Except.ok results =>
        Except.ok (if results.length > 0 then some results else none)) =
      Except.error PyErr.attributeError
    rw [hloop]
  · intro hall
    have hloop : ∃ res, searchExtLoop query include_keys cs = .ok res := by
      clear hr
      induction cs with
      | nil => exact ⟨[], rfl⟩
      | cons l ls ih =>
        have hl : l._extensions ≠ [] := hall l (List.mem_cons_self l ls)
        have hle : CEFMessage.extensions l = some l._extensions := by
          unfold CEFMessage.extensions
          rw [if_pos]
          exact List.length_pos.mpr hl
        rcases ih (fun m hm => hall m (List.mem_cons_of_mem l hm)) with ⟨res, hres⟩
        refine ⟨?_, ?_⟩
        · exact (if l._extensions.any (fun kv => isSubstr query kv.2) ||
            (include_keys && !(l._extensions.any (fun kv => isSubstr query kv.2)) &&
              l._extensions.any (fun kv => isSubstr query kv.1)) then l :: res
           else res)
        · rw [show searchExtLoop query include_keys (l :: ls) =
            (match CEFMessage.extensions l with
             | none => .error .attributeError
             | some d =>
               match searchExtLoop query include_keys ls with
               | .error e => .error e
               | .ok rest =>
                 .ok (if d.any (fun kv => isSubstr query kv.2) ||
                       (include_keys && !(d.any (fun kv => isSubstr query kv.2)) &&
                         d.any (fun kv => isSubstr query kv.1)) then l :: rest
                      else rest)) from rfl]
          rw [hle, hres]
    rcases hloop with ⟨res, hres⟩
    unfold CEFLog.search_extensions
    rw [hr]
    show ∃ r, (match searchExtLoop query include_keys cs with
      | Except.error e => Except.error e
      | Except.ok results =>
        Except.ok (if results.length > 0 then some results else none)) =
      Except.ok r
    rw [hres]
    exact ⟨_, rfl⟩

/-- Witness for C9: on an unprefixed one-message log whose message has no
extensions, the search raises; adding one extension makes it total. -/
theorem c9_search_extensions_attr_error_witness :
    CEFLog.search_extensions ⟨[msgNoPrefix]⟩ (("x").toList) none none false
        now2018 = .error .attributeError ∧
    ∃ r, CEFLog.search_extensions
        ⟨[⟨none, none, [((("a").toList), (("b").toList))], [(kVersion, .int 0)]⟩]⟩
        (("x").toList) none none false now2018 = .ok r :=
  ⟨(c9_search_extensions_attr_error ⟨[msgNoPrefix]⟩ (("x").toList) none none false
      now2018 [msgNoPrefix] (by decide)).1 ⟨msgNoPrefix, by decide, rfl⟩,
   (c9_search_extensions_attr_error
      ⟨[⟨none, none, [((("a").toList), (("b").toList))], [(kVersion, .int 0)]⟩]⟩
      (("x").toList) none none false now2018
      [⟨none, none, [((("a").toList), (("b").toList))], [(kVersion, .int 0)]⟩]
      (by decide)).2 (by decide)⟩

theorem splitUnescAux_ne_nil (p : Option Char) (l : PyStr) :
    splitUnescAux p l ≠ [] := by
  cases l with
  | nil => simp [splitUnescAux]
  | cons c t =>
    rw [show splitUnescAux p (c :: t) =
      (if c = '|' && p ≠ some '\\' then [] :: splitUnescAux (some c) t
       else
        match splitUnescAux (some c) t with
        | [] => [[c]]
        | h :: r => (c :: h) :: r) from rfl]
    by_cases hc : (c = '|' && p ≠ some '\\') = true
    · rw [if_pos hc]
      simp
    · rw [if_neg hc]
      cases splitUnescAux (some c) t <;> simp

/-- Claim C4 (amended): the match of `HEADER_SEP` is confined to the text
before the first newline (`.` does not match `'\n'`); within that first
line the header span is the longest prefix ending in an unescaped `|` —
the whole prefix up to and including the first line's *last* unescaped
pipe (its final character is an unescaped pipe and no unescaped pipe
follows it in the first line), with no bound on how many unescaped pipes
it contains — and the extension tail is the remainder of the first line;
when the first line has no unescaped pipe at all there is no span. -/
theorem c4_header_span :
    (∀ line h t, lps line = some (h, t) →
      line.takeWhile (fun c => !(c = '\n')) = h ++ t ∧ h ≠ [] ∧
        h.getLast? = some '|' ∧ prevOfLast none h ≠ some '\\' ∧
        hasUnescPipe (some '|') t = false) ∧
    (∀ line, lps line = none →
      hasUnescPipe none (line.takeWhile (fun c => !(c = '\n'))) = false) :=
  ⟨fun line h t he => lpsAux_spec (line.takeWhile (fun c => !(c = '\n'))) none h t he,
   fun line he =>
    hasUnescPipe_of_lpsAux_none none (line.takeWhile (fun c => !(c = '\n'))) he⟩

/-- Witness for C4: the nine-pipe line splits after its ninth pipe. -/
theorem c4_header_span_witness :
    ninePipeLine.takeWhile (fun c => !(c = '\n')) =
        (("0|1|2|3|4|5|6|7|8|").toList) ++ (("tail").toList) ∧
      (("0|1|2|3|4|5|6|7|8|").toList) ≠ ([] : PyStr) ∧
      (("0|1|2|3|4|5|6|7|8|").toList).getLast? = some '|' ∧
      prevOfLast none (("0|1|2|3|4|5|6|7|8|").toList) ≠ some '\\' ∧
      hasUnescPipe (some '|') (("tail").toList) = false :=
  c4_header_span.1 ninePipeLine (("0|1|2|3|4|5|6|7|8|").toList)
    (("tail").toList) (by decide)

/-- Counterexample for C4 as stated: a line with nine unescaped pipes has
all nine of them inside its header span — the claimed at-most-7 bound is
false. -/
theorem c4_counterexample :
    lps ninePipeLine =
        some ((("0|1|2|3|4|5|6|7|8|").toList), (("tail").toList)) ∧
      countUnescPipe none (("0|1|2|3|4|5|6|7|8|").toList) = 9 ∧
      ¬(countUnescPipe none (("0|1|2|3|4|5|6|7|8|").toList) ≤ 7) := by decide

/-- Claim C3 (amended): a line whose first newline-free segment has no
unescaped pipe (no header boundary — the `HEADER_SEP` match cannot cross a
newline) fails with the header-format error `CEFMessageError`; a line
whose header span splits into fewer than 7 tokens fails instead with an
uncaught `IndexError` (not a CEF error kind), provided the `Version`
extraction from token 0 succeeded (it is evaluated first); with at least 7
tokens and a parsed `Version`, neither failure occurs — the parse either
succeeds or fails with `UnsupportedValueError` on `Severity`. -/
theorem c3_parse_line_failures :
    (∀ line, hasUnescPipe none (line.takeWhile (fun c => !(c = '\n'))) = false →
      parse_line line = .error .cefMessageError) ∧
    (∀ line h t, lps line = some (h, t) → (splitUnesc h).length < 7 →
      (∃ n, versionOf ((splitUnesc h).headD []) = .ok n) →
      parse_line line = .error .indexError) ∧
    (∀ line h t, lps line = some (h, t) → 7 ≤ (splitUnesc h).length →
      (∃ n, versionOf ((splitUnesc h).headD []) = .ok n) →
      (∃ m, parse_line line = .ok m) ∨
        parse_line line = .error .unsupportedValueError) := by
  refine ⟨?_, ?_, ?_⟩
  · intro line h0
    have h1 : lps line = none := lpsAux_eq_none none _ h0
    unfold parse_line
    rw [h1]
  · intro line h t he hlen hv
    rcases hv with ⟨n, hv⟩
    have h1 : parse_line line = parseTokens h t line := by
      unfold parse_line
      rw [he]
    rw [h1]
    rcases List.exists_cons_of_ne_nil (splitUnescAux_ne_nil none h) with
      ⟨v0, vrest, hvals⟩
    have hvals2 : splitUnesc h = v0 :: vrest := hvals
    rw [hvals2] at hlen hv
    rw [List.headD_cons] at hv
    rcases vrest with _ | ⟨a1, _ | ⟨a2, _ | ⟨a3, _ | ⟨a4, _ | ⟨a5, _ | ⟨a6, r6⟩⟩⟩⟩⟩⟩
    · simp [parseTokens, hvals2, hv]
    · simp [parseTokens, hvals2, hv]
    · simp [parseTokens, hvals2, hv]
    · simp [parseTokens, hvals2, hv]
    · simp [parseTokens, hvals2, hv]
    · simp [parseTokens, hvals2, hv]
    · exfalso
      simp at hlen
      omega
  · intro line h t he hlen hv
    rcases hv with ⟨n, hv⟩
    have h1 : parse_line line = parseTokens h t line := by
      unfold parse_line
      rw [he]
    rw [h1]
    rcases hsplit : splitUnesc h with
      _ | ⟨v0, _ | ⟨a1, _ | ⟨a2, _ | ⟨a3, _ | ⟨a4, _ | ⟨a5, _ | ⟨a6, r6⟩⟩⟩⟩⟩⟩⟩ <;>
      rw [hsplit] at hlen hv
    · exact absurd hlen (by simp)
    · exact absurd hlen (by simp)
    · exact absurd hlen (by simp)
    · exact absurd hlen (by simp)
    · exact absurd hlen (by simp)
    · exact absurd hlen (by simp)
    · exact absurd hlen (by simp)
    · rw [List.headD_cons] at hv
      cases hp : pyInt a6 with
      | none =>
        right
        simp [parseTokens, hsplit, hv, hp]
      | some sev =>
        left
        refine ⟨⟨some line, some h, extFindall t,
          mkHeaders (searchSyslog v0) n a1 a2 a3 a4 a5 sev⟩, ?_⟩
        simp [parseTokens, hsplit, hv, hp]

/-- Witness for C3: the three branches at concrete inputs — a marker-free
line, a too-short header, and a well-formed line. -/
theorem c3_parse_line_failures_witness :
    parse_line (("garbage with no cef marker").toList) =
        .error .cefMessageError ∧
      parse_line (("CEF:0|").toList) = .error .indexError ∧
      ((∃ m, parse_line sampleLine = .ok m) ∨
        parse_line sampleLine = .error .unsupportedValueError) :=
  ⟨c3_parse_line_failures.1 (("garbage with no cef marker").toList) (by decide),
   c3_parse_line_failures.2.1 (("CEF:0|").toList) (("CEF:0|").toList) []
     (by decide) (by decide) ⟨0, by decide⟩,
   c3_parse_line_failures.2.2 sampleLine
     (("Apr 15 22:11:20 testhost CEF:0|Test Vendor|Test Product|Test Version|100|Test Name|100|").toList)
     (("src=1.1.1.1 dst=1.1.1.2").toList) (by decide) (by decide)
     ⟨0, by decide⟩⟩

/-- Counterexample for C3 as stated: a line with a boundary but a short
header fails with `IndexError`, not with the header-format error kind. -/
theorem c3_counterexample :
    parse_line (("CEF:0|").toList) = .error .indexError ∧
      parse_line (("CEF:0|").toList) ≠ .error .cefMessageError := by decide

/-- Claim C7 (amended): for a prefixed message whose prefix (with the
trailing hostname token dropped) `strptime`s successfully — which, because
the parse validates the date against the default year 1900, excludes
`Feb 29` — the `timestamp` property places the parsed instant in `now`'s
calendar year, or the previous year when that instant is strictly after
`now` (for clocks whose year stays in the representable range); for an
unprefixed message it is `None`.  A `Feb 29` prefix instead raises
`ValueError` (see the counterexample). -/
theorem c7_timestamp :
    (∀ (m : CEFMessage) (now : DateTime) (p : PyStr) (t : DateTime),
      dictGet m._headers kPrefix = some (.str p) →
      pyStrptime (joinSpace ((pySplitChar ' ' p).dropLast)) = .ok t →
      2 ≤ now.year → now.year ≤ 9999 →
      CEFMessage.timestamp m now =
        .ok (some
          (if DateTime.key now <
              DateTime.key ⟨now.year, t.month, t.day, t.hour, t.minute, t.second⟩
           then ⟨now.year - 1, t.month, t.day, t.hour, t.minute, t.second⟩
           else ⟨now.year, t.month, t.day, t.hour, t.minute, t.second⟩))) ∧
    (∀ (m : CEFMessage) (now : DateTime),
      CEFMessage.hasSyslogPrefix m = false →
      CEFMessage.timestamp m now = .ok none) := by
  constructor
  · intro m now p t hpre hparse hy2 hy9
    have hmem : CEFMessage.hasSyslogPrefix m = true := by
      unfold CEFMessage.hasSyslogPrefix dictMem
      rw [hpre]
      rfl
    have hr1 : pyReplaceYear now.year t =
        .ok ⟨now.year, t.month, t.day, t.hour, t.minute, t.second⟩ :=
      pyReplaceYear_ok now.year hparse (by omega) hy9
    have hr2 : pyReplaceYear (now.year - 1) t =
        .ok ⟨now.year - 1, t.month, t.day, t.hour, t.minute, t.second⟩ :=
      pyReplaceYear_ok (now.year - 1) hparse (by omega) (by omega)
    simp only [CEFMessage.timestamp, hmem, Bool.true_eq_false, if_false,
      hpre, hparse, hr1, hr2]
    by_cases hc : DateTime.key now <
        DateTime.key ⟨now.year, t.month, t.day, t.hour, t.minute, t.second⟩
    · simp [hc]
    · simp [hc]
  · intro m now hp
    unfold CEFMessage.timestamp
    rw [hp]
    rfl

/-- Witness for C7: the test suite's prefix resolves to April 15 of the
clock's year (the clock being later that April), and an unprefixed message
has no timestamp. -/
theorem c7_timestamp_witness :
    CEFMessage.timestamp (msgWithPrefix (("Apr 15 22:11:20 testhost").toList) 1)
        now2018 = .ok (some ⟨2018, 4, 15, 22, 11, 20⟩) ∧
      CEFMessage.timestamp msgNoPrefix now2018 = .ok none := by
  refine ⟨?_, c7_timestamp.2 msgNoPrefix now2018 (by decide)⟩
  have h := c7_timestamp.1
    (msgWithPrefix (("Apr 15 22:11:20 testhost").toList) 1) now2018
    (("Apr 15 22:11:20 testhost").toList) ⟨1900, 4, 15, 22, 11, 20⟩
    (by decide) (by decide) (by decide) (by decide)
  rw [h]
  decide

/-- Counterexample for C7 as stated: a message whose prefix reads
`Feb 29 12:00:00 host` is prefixed and its leading text has the
`Mon DD HH:MM:SS` shape, yet `timestamp` raises `ValueError` (strptime's
default year is 1900, which is not a leap year) instead of producing a
year-adjusted instant. -/
theorem c7_counterexample :
    CEFMessage.hasSyslogPrefix feb29Msg = true ∧
      CEFMessage.timestamp feb29Msg now2018 = .error .valueError := by decide

/-- Claim C6: starting from an empty log, any finite sequence of successful
appends of prefixed messages (against a fixed clock) leaves the line
sequence sorted by non-decreasing timestamp key, and messages with equal
timestamps keep their relative insertion order — for every key value, the
subsequence of lines with that timestamp equals the corresponding
subsequence of the append order. -/
theorem c6_sort_invariant (now : DateTime) (ms : List CEFMessage)
    (hpre : ∀ m ∈ ms, CEFMessage.hasSyslogPrefix m = true)
    (hok : (appendAll now ⟨[]⟩ ms).2 = true) :
    (appendAll now ⟨[]⟩ ms).1.lines.Pairwise
        (fun a b => tKey now a ≤ tKey now b) ∧
      ∀ k : DTKey,
        (appendAll now ⟨[]⟩ ms).1.lines.filter (fun m => tKey now m == k) =
          ms.filter (fun m => tKey now m == k) := by
  have hlines : (appendAll now ⟨[]⟩ ms).1.lines = pySort now ms :=
    appendAll_ok now ms []
      (fun x hx => absurd hx (List.not_mem_nil x)) hpre hok
  constructor
  · rw [hlines]
    exact pySort_sorted now ms
  · intro k
    rw [hlines]
    exact pySort_filter now k ms

/-- Witness for C6: two April-15 messages (severities 1 and 2, appended in
that order) and one April-10 message appended last; the result is sorted
and the April-15 tie keeps insertion order. -/
theorem c6_sort_invariant_witness :
    (appendAll now2018 ⟨[]⟩
        [msgWithPrefix (("Apr 15 22:11:20 h").toList) 1,
         msgWithPrefix (("Apr 15 22:11:20 h").toList) 2,
         msgWithPrefix (("Apr 10 00:00:00 h").toList) 3]).1.lines.Pairwise
        (fun a b => tKey now2018 a ≤ tKey now2018 b) ∧
      (appendAll now2018 ⟨[]⟩
        [msgWithPrefix (("Apr 15 22:11:20 h").toList) 1,
         msgWithPrefix (("Apr 15 22:11:20 h").toList) 2,
         msgWithPrefix (("Apr 10 00:00:00 h").toList) 3]).1.lines.filter
          (fun m => tKey now2018 m == DateTime.key ⟨2018, 4, 15, 22, 11, 20⟩) =
        [msgWithPrefix (("Apr 15 22:11:20 h").toList) 1,
         msgWithPrefix (("Apr 15 22:11:20 h").toList) 2,
         msgWithPrefix (("Apr 10 00:00:00 h").toList) 3].filter
          (fun m => tKey now2018 m == DateTime.key ⟨2018, 4, 15, 22, 11, 20⟩) :=
  ⟨(c6_sort_invariant now2018
      [msgWithPrefix (("Apr 15 22:11:20 h").toList) 1,
       msgWithPrefix (("Apr 15 22:11:20 h").toList) 2,
       msgWithPrefix (("Apr 10 00:00:00 h").toList) 3]
      (by decide) (by decide)).1,
   (c6_sort_invariant now2018
      [msgWithPrefix (("Apr 15 22:11:20 h").toList) 1,
       msgWithPrefix (("Apr 15 22:11:20 h").toList) 2,
       msgWithPrefix (("Apr 10 00:00:00 h").toList) 3]
      (by decide) (by decide)).2 (DateTime.key ⟨2018, 4, 15, 22, 11, 20⟩)⟩

/-- Claim C2 (amended): building a line from a `device_vendor` containing a
literal `|` (more generally, any vendor not ending in a bare backslash and
containing no newline — a newline would truncate the `HEADER_SEP` match
and make the re-parse fail) escapes each pipe in the text — the escaped
form `escPipes v` appears in the raw line — and re-parsing does not split
inside the vendor; but the parser never strips the escaping, so the
re-parsed `device_vendor` is the *escaped* form `escPipes v`, not the
original `v`. -/
theorem c2_escape_roundtrip (v : PyStr) (hlast : v.getLast? ≠ some '\\')
    (hnl : ¬('\n' ∈ v)) (_hpipe : '|' ∈ v) :
    ∃ m, create_line 0 v (("P").toList) (("V").toList) 1 (("N").toList) 5
        false none none [] now2018 = .ok m ∧
      m.raw_line =
        some ((("CEF:0|").toList) ++ (escPipes v ++ (("|P|V|1|N|5|").toList))) ∧
      isSubstr (escPipes v)
        ((("CEF:0|").toList) ++ (escPipes v ++ (("|P|V|1|N|5|").toList))) = true ∧
      CEFMessage.device_vendor m = some (.str (escPipes v)) := by
  have hline : create_line 0 v (("P").toList) (("V").toList) 1 (("N").toList) 5
      false none none [] now2018 =
      parse_line ((("CEF:0|").toList) ++ (escPipes v ++ (("|P|V|1|N|5|").toList))) := by
    unfold create_line
    show parse_line (("CEF:").toList ++
      List.intercalate ['|']
        [(toString (0 : Int)).toList, escPipes v, escPipes (("P").toList),
         escPipes (("V").toList), (toString (1 : Int)).toList,
         escPipes (("N").toList), (toString (5 : Int)).toList] ++ ['|']) = _
    congr 1
    rw [show (toString (0 : Int)).toList = ['0'] from rfl]
    rw [show (toString (1 : Int)).toList = ['1'] from rfl]
    rw [show (toString (5 : Int)).toList = ['5'] from rfl]
    rw [show escPipes (("P").toList) = ("P").toList from rfl]
    rw [show escPipes (("V").toList) = ("V").toList from rfl]
    rw [show escPipes (("N").toList) = ("N").toList from rfl]
    simp [List.intercalate, List.intersperse, List.append_assoc]
  have hnoNL : ∀ x ∈ (("CEF:0|").toList) ++ (escPipes v ++ (("|P|V|1|N|5|").toList)),
      (!(x = '\n')) = true := by
    intro x hx
    have hxne : x ≠ '\n' := by
      rcases List.mem_append.mp hx with h1 | h1
      · have hfin : ∀ y ∈ (("CEF:0|").toList), y ≠ '\n' := by decide
        exact hfin x h1
      · rcases List.mem_append.mp h1 with h2 | h2
        · rcases mem_escPipes x v h2 with h3 | h3
          · exact fun heq => hnl (heq ▸ h3)
          · rw [h3]
            decide
        · have hfin : ∀ y ∈ (("|P|V|1|N|5|").toList), y ≠ '\n' := by decide
          exact hfin x h2
    simpa using hxne
  have htake : ((("CEF:0|").toList) ++
      (escPipes v ++ (("|P|V|1|N|5|").toList))).takeWhile (fun c => !(c = '\n')) =
      (("CEF:0|").toList) ++ (escPipes v ++ (("|P|V|1|N|5|").toList)) :=
    List.takeWhile_eq_self_iff.mpr hnoNL
  have hlps : lps ((("CEF:0|").toList) ++ (escPipes v ++ (("|P|V|1|N|5|").toList))) =
      some ((("CEF:0|").toList) ++ (escPipes v ++ (("|P|V|1|N|5|").toList)), []) := by
    rw [show lps ((("CEF:0|").toList) ++ (escPipes v ++ (("|P|V|1|N|5|").toList))) =
      lpsAux none (((("CEF:0|").toList) ++
        (escPipes v ++ (("|P|V|1|N|5|").toList))).takeWhile (fun c => !(c = '\n')))
      from rfl]
    rw [htake]
    rw [show (("CEF:0|").toList) ++ (escPipes v ++ (("|P|V|1|N|5|").toList)) =
      ((("CEF:0|").toList) ++ (escPipes v ++ (("|P|V|1|N|5").toList))) ++ ['|'] from by
        simp [List.append_assoc]]
    refine lpsAux_append_pipe none _ (by simp) ?_
    rw [List.getLast?_append, List.getLast?_append]
    rw [show ((("|P|V|1|N|5").toList).getLast?) = some '5' from by decide]
    simp
  have hptl : parse_line ((("CEF:0|").toList) ++ (escPipes v ++ (("|P|V|1|N|5|").toList))) =
      parseTokens ((("CEF:0|").toList) ++ (escPipes v ++ (("|P|V|1|N|5|").toList))) []
        ((("CEF:0|").toList) ++ (escPipes v ++ (("|P|V|1|N|5|").toList))) := by
    unfold parse_line
    rw [hlps]
  have hsplit : splitUnesc ((("CEF:0|").toList) ++ (escPipes v ++ (("|P|V|1|N|5|").toList))) =
      ("CEF:0").toList :: escPipes v ::
        [("P").toList, ("V").toList, ("1").toList, ("N").toList, ("5").toList, []] := by
    rw [show (("CEF:0|").toList) ++ (escPipes v ++ (("|P|V|1|N|5|").toList)) =
      ("CEF:0").toList ++ '|' :: (escPipes v ++ '|' :: (("P|V|1|N|5|").toList)) from by
        simp [List.append_assoc]]
    unfold splitUnesc
    rw [splitUnescAux_comp none (("CEF:0").toList) _ (by decide) (by decide) (by decide)]
    rw [splitUnescAux_comp (some '|') (escPipes v) _
      (hasUnescPipe_escPipes (some '|') v) (fun _ => by decide)
      (escPipes_getLast v hlast)]
    rw [show splitUnescAux (some '|') (("P|V|1|N|5|").toList) =
      [("P").toList, ("V").toList, ("1").toList, ("N").toList, ("5").toList, []] from by
        decide]
  refine ⟨⟨some ((("CEF:0|").toList) ++ (escPipes v ++ (("|P|V|1|N|5|").toList))),
    some ((("CEF:0|").toList) ++ (escPipes v ++ (("|P|V|1|N|5|").toList))),
    [], mkHeaders (searchSyslog (("CEF:0").toList)) 0 (escPipes v) (("P").toList)
      (("V").toList) (("1").toList) (("N").toList) 5⟩, ?_, rfl, ?_, ?_⟩
  · rw [hline, hptl]
    unfold parseTokens
    rw [hsplit]
    simp only [List.getElem?_cons_zero, List.getElem?_cons_succ,
      show versionOf (("CEF:0").toList) = .ok 0 from by decide,
      show pyInt (("5").toList) = some 5 from by decide]
    rfl
  · exact isSubstr_of_infix ⟨(("CEF:0|").toList), (("|P|V|1|N|5|").toList), rfl⟩
  · unfold CEFMessage.device_vendor
    rw [show searchSyslog (("CEF:0").toList) = none from by decide]
    unfold mkHeaders
    rw [List.nil_append]
    rw [dictGet_cons, dictGet_cons]
    simp [kVersion, kDeviceVendor]

/-- Witness for C2: the concrete scenario with `dev_vendor = "A|B"`. -/
theorem c2_escape_roundtrip_witness :
    ∃ m, create_line 0 (("A|B").toList) (("P").toList) (("V").toList) 1
        (("N").toList) 5 false none none [] now2018 = .ok m ∧
      m.raw_line =
        some ((("CEF:0|").toList) ++
          (escPipes (("A|B").toList) ++ (("|P|V|1|N|5|").toList))) ∧
      isSubstr (escPipes (("A|B").toList))
        ((("CEF:0|").toList) ++
          (escPipes (("A|B").toList) ++ (("|P|V|1|N|5|").toList))) = true ∧
      CEFMessage.device_vendor m = some (.str (escPipes (("A|B").toList))) :=
  c2_escape_roundtrip (("A|B").toList) (by decide) (by decide) (by decide)

/-- Counterexample for C2 as stated: in the spec's concrete scenario the
re-parsed `device_vendor` is the escaped text `A\|B`, not the original
`A|B`. -/
theorem c2_counterexample :
    (create_line 0 (("A|B").toList) (("P").toList) (("V").toList) 1
        (("N").toList) 5 false none none [] now2018).map
        (fun m => CEFMessage.device_vendor m) =
      .ok (some (.str (("A\\|B").toList))) ∧
      ¬(("A\\|B").toList = ("A|B").toList) := by decide

end Pourover
